import Mathlib

/-!
Verification of the legalscanner scan-orchestration core.

A shallow embedding of the Rust sources under `legalscanner-api/src`:

* `db/models/scan.rs` — the scan lifecycle state machine (`update_status`,
  `update_fossology_status`, `update_semgrep_status`, `update_overall_status`).
* `api/handlers/risk.rs` — the risk-scoring engine (`calculate_risk_score`,
  `get_license_weight`, `is_copyleft`, `is_unknown_or_proprietary`).
* `api/handlers/scan_job.rs` — the coordinator (`execute_scan_job`,
  `execute_scan_internal`) and the result merge (`merge_scan_results`).
* `scanner/fossology/client.rs` — the readiness poll (`wait_for_upload_ready`)
  and the license-result conversion in `get_licenses`.

Modelling conventions: SQL `UPDATE` statements become pure functions on a
`Scan` record with the wall-clock instant (`datetime('now')`) passed
explicitly as a `Nat`; Rust `i32`/`i64` become `Int` (no score computation
here can approach the 2^31 wrap, so overflow is not modelled); `f32`
confidence values become `ℚ` (only order comparisons against 0.5/0.7 are
performed on them); fallible operations return `Option`/`Except`.
-/

namespace LegalScanner

/-! ## Scan lifecycle state machine (`db/models/scan.rs`) -/

/-- The four status strings used for the overall scan status and for each
sub-job status: `pending`, `in_progress`, `completed`, `failed`. -/
inductive Status where
  | pending
  | inProgress
  | completed
  | failed
deriving DecidableEq, Repr

/-- Row of the `scans` table: the fields touched by the status-update
queries.  Timestamps are modelled as `Option Nat` (`none` = SQL NULL). -/
structure Scan where
  status : Status
  errorMessage : Option String
  startedAt : Option Nat
  completedAt : Option Nat
  fossologyStatus : Status
  semgrepStatus : Status
  fossologyStartedAt : Option Nat
  fossologyCompletedAt : Option Nat
  semgrepStartedAt : Option Nat
  semgrepCompletedAt : Option Nat
  fossologyError : Option String
  semgrepError : Option String
deriving DecidableEq, Repr

/-- `Scan::update_status`: set `status` and `error_message`; stamp
`started_at` on the `pending → in_progress` transition (the `status` in the
SQL `CASE` reads the pre-update column value), and stamp `completed_at`
whenever the new status is `completed` or `failed`. -/
def Scan.update_status (s : Scan) (st : Status) (err : Option String)
    (now : Nat) : Scan :=
  { s with
    status := st
    errorMessage := err
    startedAt :=
      if s.status = .pending ∧ st = .inProgress then some now else s.startedAt
    completedAt :=
      if st = .completed ∨ st = .failed then some now else s.completedAt }

/-- `Scan::update_fossology_status`: same shape as `update_status` but on the
`fossology_*` columns. -/
def Scan.update_fossology_status (s : Scan) (st : Status) (err : Option String)
    (now : Nat) : Scan :=
  { s with
    fossologyStatus := st
    fossologyError := err
    fossologyStartedAt :=
      if s.fossologyStatus = .pending ∧ st = .inProgress then some now
      else s.fossologyStartedAt
    fossologyCompletedAt :=
      if st = .completed ∨ st = .failed then some now
      else s.fossologyCompletedAt }

/-- `Scan::update_semgrep_status`: same shape as `update_status` but on the
`semgrep_*` columns. -/
def Scan.update_semgrep_status (s : Scan) (st : Status) (err : Option String)
    (now : Nat) : Scan :=
  { s with
    semgrepStatus := st
    semgrepError := err
    semgrepStartedAt :=
      if s.semgrepStatus = .pending ∧ st = .inProgress then some now
      else s.semgrepStartedAt
    semgrepCompletedAt :=
      if st = .completed ∨ st = .failed then some now
      else s.semgrepCompletedAt }

/-- The `CASE` expression of `Scan::update_overall_status` that derives the
overall status from the two sub-job statuses. -/
def deriveOverall (foss sem : Status) : Status :=
  if foss = .completed ∧ sem = .completed then .completed
  else if foss = .failed ∨ sem = .failed then .failed
  else if foss = .inProgress ∨ sem = .inProgress then .inProgress
  else .pending

/-- `Scan::update_overall_status`: recompute `status` from the two sub-job
statuses and stamp `completed_at` whenever both sub-jobs are `completed`
(note: with no NULL guard, so an already-set `completed_at` is overwritten). -/
def Scan.update_overall_status (s : Scan) (now : Nat) : Scan :=
  { s with
    status := deriveOverall s.fossologyStatus s.semgrepStatus
    completedAt :=
      if s.fossologyStatus = .completed ∧ s.semgrepStatus = .completed then
        some now
      else s.completedAt }

/-- The precedence table of spec §4.3, written exactly as the spec states it:
both completed ⇒ completed; else either failed ⇒ failed; else either
in-progress ⇒ in-progress; else pending. -/
def specOverallTable (foss sem : Status) : Status :=
  if foss = .completed ∧ sem = .completed then .completed
  else if foss = .failed ∨ sem = .failed then .failed
  else if foss = .inProgress ∨ sem = .inProgress then .inProgress
  else .pending

/-! ## Persisted findings (`db/models/scan_result.rs`)

Row of the `scan_results` table.  The fields of the export-control columns
(`risk_severity`, `ecc_source`, `ecc_line_number`, `ecc_check_id`) are
reconstructed from their uses in `risk.rs`, `scans.rs` and `spdx.rs`.
`f32` confidence is modelled as `ℚ`. -/

structure ScanResultRow where
  scanId : String
  filePath : String
  resultType : String
  licenseName : Option String := none
  licenseSpdxId : Option String := none
  copyrightStatement : Option String := none
  copyrightHolders : Option String := none
  copyrightYears : Option String := none
  confidence : Option ℚ := none
  riskSeverity : Option String := none
  eccSource : Option String := none
  eccLineNumber : Option Int := none
  eccCheckId : Option String := none
  rawData : Option String := none
deriving DecidableEq, Repr

/-! ## Risk scoring engine (`api/handlers/risk.rs`) -/

/-- One `risk_config` row as loaded by `load_risk_config`:
`(license_pattern, risk_weight)`. -/
abbrev RiskConfig := List (String × Int)

/-- Rust's `str::contains(&str)` (substring test) on lists of characters.
All Rust string operations are modelled on `String.toList` so that every
definition is evaluable by the kernel. -/
def charsContain (haystack needle : List Char) : Bool :=
  needle.isPrefixOf haystack ||
    match haystack with
    | [] => false
    | _ :: t => charsContain t needle

/-- Rust's `String::contains(&str)`. -/
def strContainsStr (s pat : String) : Bool :=
  charsContain s.toList pat.toList

/-- Rust's `str::split(char)`: split a character list at every occurrence of
`c`, keeping empty parts (a list with `n` separators yields `n + 1` parts). -/
def splitOnChar (c : Char) : List Char → List (List Char)
  | [] => [[]]
  | x :: t =>
    let r := splitOnChar c t
    if x = c then [] :: r
    else
      match r with
      | [] => [[x]]
      | h :: t' => (x :: h) :: t'

/-- `get_license_weight`: walk the ordered config, first matching pattern
wins.  `pat%` is a prefix match on the text before the `%`; `%pat` is a
suffix match on the text after the `%`; a pattern with an interior `%`
splitting into exactly two parts is a starts-with/ends-with match; a
`%`-free pattern is an exact match. -/
def get_license_weight (config : RiskConfig) (licenseName : String) :
    Option Int :=
  match config with
  | [] => none
  | (pat, weight) :: rest =>
    let patC := pat.toList
    let nameC := licenseName.toList
    if patC.getLast? = some '%' then
      if patC.dropLast.isPrefixOf nameC then some weight
      else get_license_weight rest licenseName
    else if patC.head? = some '%' then
      if (patC.drop 1).isSuffixOf nameC then some weight
      else get_license_weight rest licenseName
    else if patC.contains '%' then
      match splitOnChar '%' patC with
      | [a, b] =>
        if a.isPrefixOf nameC && b.isSuffixOf nameC then some weight
        else get_license_weight rest licenseName
      | _ => get_license_weight rest licenseName
    else if pat = licenseName then some weight
    else get_license_weight rest licenseName

/-- `is_copyleft`: the license name contains one of the fixed copyleft
keywords. -/
def is_copyleft (licenseName : String) : Bool :=
  ["GPL", "AGPL", "LGPL", "MPL", "EPL", "CDDL", "CPL", "Sleepycat"].any
    (fun pat => strContainsStr licenseName pat)

/-- `is_unknown_or_proprietary`: the license name contains one of the fixed
unknown/proprietary keywords. -/
def is_unknown_or_proprietary (licenseName : String) : Bool :=
  ["No_license_found", "Unknown", "Proprietary", "Commercial", "See-file",
    "possibility"].any
    (fun pat => strContainsStr licenseName pat)

/-- A categorized risk factor (`api/models`): category tag, severity,
description, affected count and detail strings. -/
structure RiskFactor where
  category : String
  severity : String
  description : String
  affectedCount : Int
  details : List String
deriving DecidableEq, Repr

/-- The result of `calculate_risk_score`. -/
structure RiskAssessment where
  score : Int
  level : String
  factors : List RiskFactor
deriving DecidableEq, Repr

/-- The license-typed rows: `results.iter().filter(result_type == "license")`. -/
def licenseResults (results : List ScanResultRow) : List ScanResultRow :=
  results.filter (fun r => r.resultType == "license")

/-- `Vec`-push guarded by `!vec.contains(&x)` (keeps first occurrence). -/
def pushIfAbsent (l : List String) (x : String) : List String :=
  if l.contains x then l else l ++ [x]

/-- `license_risk_map.entry(name).or_insert(vec![])` followed by a
push-if-absent of the file path; the `HashMap` is modelled as an
association list (iteration order of the map is never used by the code). -/
def mapPushFile (m : List (String × List String)) (k v : String) :
    List (String × List String) :=
  match m with
  | [] => [(k, [v])]
  | (k', files) :: t =>
    if k' == k then
      (k', if files.contains v then files else files ++ [v]) :: t
    else (k', files) :: mapPushFile t k v

/-- Lookup in the modelled `license_risk_map`. -/
def mapGetFiles (m : List (String × List String)) (k : String) :
    Option (List String) :=
  (m.find? (fun e => e.1 == k)).map (fun e => e.2)

/-- Accumulator of the first loop of `calculate_risk_score`: the
`license_risk_map` plus the `copyleft_licenses` and `unknown_licenses`
vectors. -/
structure LicCollect where
  riskMap : List (String × List String)
  copyleft : List String
  unknown : List String
deriving DecidableEq, Repr

/-- One iteration of the license-categorisation loop: rows whose license
name has a configured weight `> 0` are recorded in the risk map and
categorised as copyleft or unknown/proprietary. -/
def collectStep (cfg : RiskConfig) (st : LicCollect) (r : ScanResultRow) :
    LicCollect :=
  match r.licenseName with
  | none => st
  | some nm =>
    match get_license_weight cfg nm with
    | none => st
    | some w =>
      if 0 < w then
        let m := mapPushFile st.riskMap nm r.filePath
        if is_copyleft nm then
          { st with riskMap := m, copyleft := pushIfAbsent st.copyleft nm }
        else if is_unknown_or_proprietary nm then
          { st with riskMap := m, unknown := pushIfAbsent st.unknown nm }
        else { st with riskMap := m }
      else st

/-- The whole first loop of `calculate_risk_score`. -/
def collectLicenses (cfg : RiskConfig) (results : List ScanResultRow) :
    LicCollect :=
  (licenseResults results).foldl (collectStep cfg) ⟨[], [], []⟩

/-- Reduction of an `i32` computation result to its two's-complement
representative in `[-2^31, 2^31)`. -/
def wrapI32 (n : Int) : Int := (n + 2147483648) % 4294967296 - 2147483648

/-- Rust's release-mode `i32` addition (`+=` on `base_score`): wrapping
two's-complement addition.  (Debug builds panic at the same inputs; this
model follows the release semantics.) -/
def addI32 (a b : Int) : Int := wrapI32 (a + b)

/-- The `base_score += weight` accumulation over one category list
(`copyleft_licenses` or `unknown_licenses`), threaded through the running
`i32` accumulator `base`: each `+=` is a wrapping `i32` addition on the
DB-loaded `i32` weight. -/
def licenseListScore (cfg : RiskConfig) (m : List (String × List String))
    (base : Int) (names : List String) : Int :=
  names.foldl
    (fun acc nm =>
      match mapGetFiles m nm with
      | none => acc
      | some _ => addI32 acc ((get_license_weight cfg nm).getD 0))
    base

/-- The mathematical (unwrapped) weight total of one category list: the
value the `base_score += weight` loop accumulates whenever no `i32`
overflow occurs. -/
def licenseListSum (cfg : RiskConfig) (m : List (String × List String))
    (names : List String) : Int :=
  names.foldl
    (fun acc nm =>
      match mapGetFiles m nm with
      | none => acc
      | some _ => acc + (get_license_weight cfg nm).getD 0)
    0

/-- Affected-file count and detail strings for one category list. -/
def licenseListCountDetails (m : List (String × List String))
    (names : List String) : Int × List String :=
  names.foldl
    (fun acc nm =>
      match mapGetFiles m nm with
      | none => acc
      | some files =>
        (acc.1 + files.length,
          acc.2 ++ [nm ++ " (" ++ toString files.length ++ " files)"]))
    (0, [])

/-- Contribution 1: license-type risk (copyleft plus unknown/proprietary
weights, once per distinct qualifying license name), as the source
accumulates it — the copyleft loop and then the unknown loop both `+=`
into the same `i32` `base_score`, which starts at 0. -/
def licenseTypeScore (cfg : RiskConfig) (results : List ScanResultRow) : Int :=
  let c := collectLicenses cfg results
  licenseListScore cfg c.riskMap (licenseListScore cfg c.riskMap 0 c.copyleft)
    c.unknown

/-- The mathematical (unwrapped) license-type total. -/
def licenseTypeSum (cfg : RiskConfig) (results : List ScanResultRow) : Int :=
  let c := collectLicenses cfg results
  licenseListSum cfg c.riskMap c.copyleft +
    licenseListSum cfg c.riskMap c.unknown

/-- The confidence threshold `0.5`. -/
def ratHalf : ℚ := ⟨1, 2, by norm_num, by norm_num⟩

/-- The confidence threshold `0.7`. -/
def ratSevenTenths : ℚ := ⟨7, 10, by norm_num, by norm_num⟩

theorem ratHalf_eq : ratHalf = 1 / 2 := by
  rw [ratHalf, Rat.mk'_eq_divInt, Rat.divInt_eq_div]; norm_num

theorem ratSevenTenths_eq : ratSevenTenths = 7 / 10 := by
  rw [ratSevenTenths, Rat.mk'_eq_divInt, Rat.divInt_eq_div]; norm_num

/-- The rows with a missing or empty SPDX identifier
(`license_name.is_some() && (spdx is none or empty)`). -/
def missingSpdx (results : List ScanResultRow) : List ScanResultRow :=
  (licenseResults results).filter fun r =>
    r.licenseName.isSome &&
      match r.licenseSpdxId with
      | none => true
      | some s => s == ""

/-- Contribution 2: 2 points per file with a license but no SPDX id. -/
def missingSpdxPoints (results : List ScanResultRow) : Int :=
  2 * (missingSpdx results).length

/-- `license_counts` of the missing-SPDX factor: name → number of files,
modelled as an association list in first-occurrence order. -/
def bumpCount (m : List (String × Int)) (k : String) : List (String × Int) :=
  match m with
  | [] => [(k, 1)]
  | (k', c) :: t =>
    if k' == k then (k', c + 1) :: t else (k', c) :: bumpCount t k

/-- Lexicographic order on character lists (Rust `String` `Ord`). -/
def charListLe : List Char → List Char → Bool
  | [], _ => true
  | _ :: _, [] => false
  | a :: as, b :: bs => if a = b then charListLe as bs else decide (a < b)

/-- Insertion sort on strings, modelling `Vec::sort` (the sort key sets here
are duplicate-free, so stability is immaterial). -/
def insertSorted (x : String) : List String → List String
  | [] => [x]
  | y :: t =>
    if charListLe x.toList y.toList then x :: y :: t else y :: insertSorted x t

def sortStrings (l : List String) : List String := l.foldr insertSorted []

/-- Detail strings of the missing-SPDX factor: per-license file counts,
formatted and sorted. -/
def missingSpdxDetails (results : List ScanResultRow) : List String :=
  let counts :=
    (missingSpdx results).foldl
      (fun m r =>
        match r.licenseName with
        | none => m
        | some nm => bumpCount m nm)
      []
  sortStrings
    (counts.map fun e => e.1 ++ " (" ++ toString e.2 ++ " files)")

/-- The rows of the low-confidence filter
(`confidence.is_some() && confidence < 0.7`). -/
def lowConfidenceRows (results : List ScanResultRow) : List ScanResultRow :=
  (licenseResults results).filter fun r =>
    match r.confidence with
    | some c => decide (c < ratSevenTenths)
    | none => false

/-- `(confidence * 100.0) as i32`: truncation toward zero. -/
def ratTruncToInt (q : ℚ) : Int :=
  if 0 ≤ q then q.floor else -((-q).floor)

/-- Accumulator of the low-confidence loop: points, count of findings below
0.5 (`critical_count`), count in `[0.5, 0.7)` (`medium_count`), details. -/
structure LowConfAcc where
  points : Int
  criticalCount : Nat
  mediumCount : Nat
  details : List String
deriving DecidableEq, Repr

/-- One iteration of the low-confidence loop: `< 0.5` adds 15 points and a
detail line; `[0.5, 0.7)` adds 8 points and no detail line. -/
def lowConfStep (acc : LowConfAcc) (r : ScanResultRow) : LowConfAcc :=
  match r.confidence with
  | none => acc
  | some c =>
    if c < ratHalf then
      { acc with
        points := acc.points + 15
        criticalCount := acc.criticalCount + 1
        details := acc.details ++
          [r.licenseName.getD "Unknown" ++ " (" ++
            toString (ratTruncToInt (c * 100)) ++ "% confidence)"] }
    else if c < ratSevenTenths then
      { acc with points := acc.points + 8, mediumCount := acc.mediumCount + 1 }
    else acc

/-- The whole low-confidence loop. -/
def lowConfAcc (results : List ScanResultRow) : LowConfAcc :=
  (lowConfidenceRows results).foldl lowConfStep ⟨0, 0, 0, []⟩

/-- Contribution 3: low-confidence points. -/
def lowConfidencePoints (results : List ScanResultRow) : Int :=
  (lowConfAcc results).points

/-- The export-control rows (`result_type == "ecc"`). -/
def eccResults (results : List ScanResultRow) : List ScanResultRow :=
  results.filter (fun r => r.resultType == "ecc")

/-- Accumulator of the ECC loop: points, per-severity counts and per-severity
file-path detail lists. -/
structure EccAcc where
  points : Int
  criticalCount : Nat
  highCount : Nat
  mediumCount : Nat
  lowCount : Nat
  criticalDetails : List String
  highDetails : List String
  mediumDetails : List String
  lowDetails : List String
deriving DecidableEq, Repr

/-- One iteration of the ECC loop: a missing severity defaults to `medium`;
`critical` adds 20 points, `high` 12, `medium` 6 and anything else 2. -/
def eccStep (acc : EccAcc) (r : ScanResultRow) : EccAcc :=
  let sev := r.riskSeverity.getD "medium"
  if sev == "critical" then
    { acc with
      points := acc.points + 20
      criticalCount := acc.criticalCount + 1
      criticalDetails := acc.criticalDetails ++ [r.filePath] }
  else if sev == "high" then
    { acc with
      points := acc.points + 12
      highCount := acc.highCount + 1
      highDetails := acc.highDetails ++ [r.filePath] }
  else if sev == "medium" then
    { acc with
      points := acc.points + 6
      mediumCount := acc.mediumCount + 1
      mediumDetails := acc.mediumDetails ++ [r.filePath] }
  else
    { acc with
      points := acc.points + 2
      lowCount := acc.lowCount + 1
      lowDetails := acc.lowDetails ++ [r.filePath] }

/-- The whole ECC loop. -/
def eccAcc (results : List ScanResultRow) : EccAcc :=
  (eccResults results).foldl eccStep ⟨0, 0, 0, 0, 0, [], [], [], []⟩

/-- Contribution 4: export-control points. -/
def eccPoints (results : List ScanResultRow) : Int :=
  (eccAcc results).points

/-- The distinct license names among the license rows (`unique_licenses`
`HashSet`, modelled as a first-occurrence-ordered duplicate-free list; only
its cardinality and a 10-element sample are consumed). -/
def uniqueLicenses (results : List ScanResultRow) : List String :=
  ((licenseResults results).filterMap (fun r => r.licenseName)).foldl
    pushIfAbsent []

/-- The diversity bucket over the distinct license count: `> 15 → 10`,
`≥ 10 → 6`, `≥ 5 → 3`, else `0`. -/
def diversityBucket (licenseCount : Nat) : Int :=
  if licenseCount > 15 then 10
  else if licenseCount ≥ 10 then 6
  else if licenseCount ≥ 5 then 3
  else 0

/-- Contribution 5: license-diversity points. -/
def diversityPoints (results : List ScanResultRow) : Int :=
  diversityBucket (uniqueLicenses results).length

/-- The level mapping on the final score:
`0..=25 → low`, `26..=50 → medium`, `51..=75 → high`, else `critical`. -/
def riskLevel (score : Int) : String :=
  if 0 ≤ score ∧ score ≤ 25 then "low"
  else if 26 ≤ score ∧ score ≤ 50 then "medium"
  else if 51 ≤ score ∧ score ≤ 75 then "high"
  else "critical"

/-- The `i32` `base_score` at the end of `calculate_risk_score`: the
license-type accumulation followed by one wrapping `+=` per remaining
section's points. -/
def baseScore (cfg : RiskConfig) (results : List ScanResultRow) : Int :=
  addI32
    (addI32
      (addI32 (addI32 (licenseTypeScore cfg results) (missingSpdxPoints results))
        (lowConfidencePoints results))
      (eccPoints results))
    (diversityPoints results)

/-- The mathematical (unwrapped) sum of the five contributions: the value
`base_score` holds whenever the accumulation never leaves the `i32`
range. -/
def contributionSum (cfg : RiskConfig) (results : List ScanResultRow) : Int :=
  licenseTypeSum cfg results + missingSpdxPoints results +
    lowConfidencePoints results + eccPoints results + diversityPoints results

/-- The `copyleft_license` factor, emitted when at least one copyleft
license matched a positive weight. -/
def copyleftFactorList (cfg : RiskConfig) (results : List ScanResultRow) :
    List RiskFactor :=
  let col := collectLicenses cfg results
  if col.copyleft.isEmpty then []
  else
    let cd := licenseListCountDetails col.riskMap col.copyleft
    [RiskFactor.mk "copyleft_license" "high"
      "Strong copyleft licenses detected - may require releasing derivative works under same license"
      cd.1 cd.2]

/-- The `unknown_license` factor. -/
def unknownFactorList (cfg : RiskConfig) (results : List ScanResultRow) :
    List RiskFactor :=
  let col := collectLicenses cfg results
  if col.unknown.isEmpty then []
  else
    let cd := licenseListCountDetails col.riskMap col.unknown
    [RiskFactor.mk "unknown_license" "medium"
      "Unknown or proprietary licenses detected - unclear usage rights"
      cd.1 cd.2]

/-- The `missing_spdx_id` factor. -/
def missingFactorList (results : List ScanResultRow) : List RiskFactor :=
  if (missingSpdx results).isEmpty then []
  else
    [RiskFactor.mk "missing_spdx_id" "medium"
      "Licenses without SPDX identifiers - ambiguous or non-standard licenses"
      (missingSpdx results).length (missingSpdxDetails results)]

/-- The `low_confidence` factor: one factor covering both confidence
buckets, severity `high` when any finding is below 0.5 and `medium`
otherwise. -/
def lowConfFactorList (results : List ScanResultRow) : List RiskFactor :=
  let lowConf := lowConfAcc results
  if (lowConfidenceRows results).isEmpty then []
  else
    [RiskFactor.mk "low_confidence"
      (if 0 < lowConf.criticalCount then "high" else "medium")
      "Low confidence license detections - may require manual review"
      (lowConf.criticalCount + lowConf.mediumCount) lowConf.details]

/-- The `ecc_critical_high` factor: severity `critical` when any critical
finding is present, else `high`. -/
def eccCriticalHighFactorList (results : List ScanResultRow) :
    List RiskFactor :=
  let ecc := eccAcc results
  if 0 < ecc.criticalCount ∨ 0 < ecc.highCount then
    [RiskFactor.mk "ecc_critical_high"
      (if 0 < ecc.criticalCount then "critical" else "high")
      "Critical or high-severity export control findings - may require compliance review"
      (ecc.criticalCount + ecc.highCount)
      ((if 0 < ecc.criticalCount then
          ("Critical: " ++ toString ecc.criticalCount ++ " findings") ::
            ecc.criticalDetails.take 3
        else []) ++
        (if 0 < ecc.highCount then
          ("High: " ++ toString ecc.highCount ++ " findings") ::
            ecc.highDetails.take 3
        else []))]
  else []

/-- The `ecc_medium_low` factor. -/
def eccMediumLowFactorList (results : List ScanResultRow) : List RiskFactor :=
  let ecc := eccAcc results
  if 0 < ecc.mediumCount ∨ 0 < ecc.lowCount then
    [RiskFactor.mk "ecc_medium_low" "medium"
      "Export control findings detected - review for compliance requirements"
      (ecc.mediumCount + ecc.lowCount)
      ((if 0 < ecc.mediumCount then
          ["Medium: " ++ toString ecc.mediumCount ++ " findings"]
        else []) ++
        (if 0 < ecc.lowCount then
          ["Low: " ++ toString ecc.lowCount ++ " findings"]
        else []))]
  else []

/-- The `license_diversity` factor, emitted when the diversity points are
positive. -/
def diversityFactorList (results : List ScanResultRow) : List RiskFactor :=
  let licenseCount := (uniqueLicenses results).length
  if 0 < diversityPoints results then
    [RiskFactor.mk "license_diversity" "low"
      ("High license diversity (" ++ toString licenseCount ++
        " unique licenses) - may indicate compatibility issues")
      licenseCount ((uniqueLicenses results).take 10)]
  else []

/-- `calculate_risk_score` (the pure part, after the rows and the config have
been fetched): the factor list in emission order, the capped score and the
level. -/
def calculate_risk_score (cfg : RiskConfig) (results : List ScanResultRow) :
    RiskAssessment :=
  let finalScore := min (baseScore cfg results) 100
  { score := finalScore
    level := riskLevel finalScore
    factors := copyleftFactorList cfg results ++ unknownFactorList cfg results ++
      missingFactorList results ++ lowConfFactorList results ++
      eccCriticalHighFactorList results ++ eccMediumLowFactorList results ++
      diversityFactorList results }

/-! ## Adapter result shape (`scanner/traits.rs`)

The struct in the `src` snapshot of `traits.rs` predates the export-control
extension; the `EccFinding` struct and the `ecc_findings` field are
reconstructed from their construction sites in `scanner/semgrep/parser.rs`
and their uses in `api/handlers/scan_job.rs`. -/

structure LicenseFinding where
  name : String
  spdxId : Option String
  confidence : ℚ
deriving DecidableEq, Repr

structure CopyrightFinding where
  statement : String
  holders : List String
  years : List String
deriving DecidableEq, Repr

structure EccFinding where
  content : String
  riskSeverity : String
  eccSource : Option String
  lineNumber : Option Int
  checkId : Option String
deriving DecidableEq, Repr

/-- `scanner::ScanResult`: per-file findings as produced by an adapter. -/
structure ScanResult where
  filePath : String
  licenses : List LicenseFinding
  copyrights : List CopyrightFinding
  eccFindings : List EccFinding
deriving DecidableEq, Repr

/-! ## Result merge (`api/handlers/scan_job.rs::merge_scan_results`) -/

/-- The `file_index_map`: a `HashMap` filled by inserting `(path, idx)` for
each record of `A` in order, so a duplicated path maps to its last index. -/
def lastIdxOf (A : List ScanResult) (p : String) : Option Nat :=
  (A.enum.filterMap fun e => if e.2.filePath == p then some e.1 else none).getLast?

/-- In-place update of the element at index `i` (`fossology_results[idx]`). -/
def modifyAt (l : List α) (i : Nat) (f : α → α) : List α :=
  match l, i with
  | [], _ => []
  | x :: t, 0 => f x :: t
  | x :: t, n + 1 => x :: modifyAt t n f

/-- One iteration over the secondary (`semgrep`) records: a record whose path
is indexed extends that primary record's `ecc_findings`; otherwise it is
queued in `results_to_add`. -/
def mergeStep (A : List ScanResult) (st : List ScanResult × List ScanResult)
    (b : ScanResult) : List ScanResult × List ScanResult :=
  match lastIdxOf A b.filePath with
  | some i =>
    (modifyAt st.1 i
      (fun r => { r with eccFindings := r.eccFindings ++ b.eccFindings }),
      st.2)
  | none => (st.1, st.2 ++ [b])

/-- `merge_scan_results`: fold the secondary records over the primary list,
then append the queued additions. -/
def merge_scan_results (A B : List ScanResult) : List ScanResult :=
  let st := B.foldl (mergeStep A) (A, [])
  st.1 ++ st.2

/-! ## Coordinator (`api/handlers/scan_job.rs`)

The status/persistence effects of `execute_scan_job` around
`execute_scan_internal`, from the point where the workspace and the clone
have succeeded.  Each adapter's result is an `Except` carrying the
stringified `ScanError`.  The two `tokio::join!` branches write disjoint
sub-job columns and each rederives the overall status, so their
interleavings all yield the same final row; the model fixes the
fossology-branch-first order.  `datetime('now')` instants are passed as one
explicit `now` parameter. -/

/-- The coordinator from "both sub-jobs start" to the end of the background
job: returns the final scan row together with the findings handed to
`store_scan_results` (empty when either adapter failed, since the `?`
operators abort before the merge/persist steps and `execute_scan_job` then
records the failure). -/
def runScanJob (s : Scan) (fossRes semRes : Except String (List ScanResult))
    (now : Nat) : Scan × List ScanResult :=
  let s := s.update_status .inProgress none now
  let s := s.update_fossology_status .inProgress none now
  let s := s.update_semgrep_status .inProgress none now
  let s := s.update_overall_status now
  let s :=
    match fossRes with
    | .ok _ => s.update_fossology_status .completed none now
    | .error e => s.update_fossology_status .failed (some e) now
  let s := s.update_overall_status now
  let s :=
    match semRes with
    | .ok _ => s.update_semgrep_status .completed none now
    | .error e => s.update_semgrep_status .failed (some e) now
  let s := s.update_overall_status now
  match fossRes, semRes with
  | .ok fr, .ok sr => (s.update_overall_status now, merge_scan_results fr sr)
  | .error e, _ => (s.update_status .failed (some e) now, [])
  | .ok _, .error e => (s.update_status .failed (some e) now, [])

/-! ## Fossology license-result conversion
(`scanner/fossology/client.rs::get_licenses`, the pure conversion applied
after the JSON deserialisation succeeded). -/

structure FossologyFindings where
  scanner : Option (List String)
  conclusion : Option (List String)
deriving DecidableEq, Repr

structure FossologyLicenseResponse where
  filePath : String
  findings : Option FossologyFindings
deriving DecidableEq, Repr

/-- `LicenseFinding` of the client module: native license name, no SPDX id,
default 100.0 match percentage. -/
structure ClientLicenseFinding where
  license : String
  spdxId : Option String
  matchPercentage : ℚ
deriving DecidableEq, Repr

structure LicenseResult where
  filePath : String
  findings : List ClientLicenseFinding
deriving DecidableEq, Repr

/-- One findings list (`scanner` or `conclusion`): every name equal to
`"No_license_found"` is skipped; the rest become findings with no SPDX id
and 100.0 confidence. -/
def convertLicenseList (names : List String) : List ClientLicenseFinding :=
  names.filterMap fun nm =>
    if nm == "No_license_found" then none
    else some { license := nm, spdxId := none, matchPercentage := 100 }

/-- One `FossologyLicenseResponse`: missing findings yield nothing; scanner
findings then conclusion findings are collected; a file whose collected
list is empty yields no record. -/
def convertLicenseResponse (fr : FossologyLicenseResponse) :
    Option LicenseResult :=
  match fr.findings with
  | none => none
  | some f =>
    let allFindings :=
      convertLicenseList (f.scanner.getD []) ++
        convertLicenseList (f.conclusion.getD [])
    if allFindings.isEmpty then none
    else some { filePath := fr.filePath, findings := allFindings }

/-- The whole conversion of `get_licenses` (`filter_map` over the parsed
responses). -/
def get_licenses_convert (resps : List FossologyLicenseResponse) :
    List LicenseResult :=
  resps.filterMap convertLicenseResponse

/-! ## Readiness poll (`scanner/fossology/client.rs::wait_for_upload_ready`)

The loop is modelled against a response stream `σ` (what the service answers
to the `attempt`-th status request) and a poll-duration function `δ` (the
wall-clock time consumed by the `attempt`-th HTTP round trip).  Wall time is
measured in integer milliseconds; elapsed time is the sum of the poll
durations and sleeps performed so far, checked against the 5-minute ceiling
(`300000` ms) strictly, as in `start.elapsed() > max_total_wait`. -/

/-- What one status request can observe. -/
inductive PollResponse where
  | readyOk
  | okNotReady
  | parseErr
  | status503
  | otherStatus
deriving DecidableEq, Repr

/-- The sleep schedule in milliseconds: attempts 1-5 sleep 1, 2, 4, 8 and 15
seconds; every later attempt sleeps 30 seconds. -/
def backoffDelay (attempt : Nat) : Nat :=
  match attempt with
  | 1 => 1000
  | 2 => 2000
  | 3 => 4000
  | 4 => 8000
  | 5 => 15000
  | _ => 30000

/-- The loop of `wait_for_upload_ready`, fuelled.  Returns
`some (.error (elapsed, attempts))` for the timeout failure (the elapsed
time and attempt count carried by the `ScanError::Failed` message),
`some (.ok (elapsed, attempt))` when the service reports the upload ready,
and `none` only when the fuel runs out.  Only `readyOk` returns early;
ok-but-not-ready responses, unparsable bodies, `503` and any other status
all fall through to the sleep and the next attempt. -/
def waitRun (σ : Nat → PollResponse) (δ : Nat → Nat) :
    Nat → Nat → Nat → Option (Except (Nat × Nat) (Nat × Nat))
  | 0, _, _ => none
  | fuel + 1, a, elapsed =>
    let attempt := a + 1
    if 300000 < elapsed then some (.error (elapsed, attempt - 1))
    else
      match σ attempt with
      | .readyOk => some (.ok (elapsed + δ attempt, attempt))
      | _ =>
        waitRun σ δ fuel attempt (elapsed + δ attempt + backoffDelay attempt)

/-- `wait_for_upload_ready` on a fresh timer, with enough fuel for any run
that can reach the 300-second ceiling (each iteration sleeps at least one
second, so 1000 iterations are more than enough). -/
def wait_for_upload_ready_run (σ : Nat → PollResponse) (δ : Nat → Nat) :
    Option (Except (Nat × Nat) (Nat × Nat)) :=
  waitRun σ δ 1000 0 0

/-! ## Spec-side formulations, for refinement comparisons -/

/-- Pattern matching exactly as the spec words it: a rule with a trailing
`%` matches the names starting with the text before the `%`; a rule with a
leading `%` matches the names ending with the text after the `%`; a rule of
the form `a%b` matches the names that start with `a` and end with `b`; a
`%`-free pattern matches only the identical string. -/
def ruleMatches (pat licenseName : String) : Bool :=
  let patC := pat.toList
  let nameC := licenseName.toList
  if patC.getLast? = some '%' then patC.dropLast.isPrefixOf nameC
  else if patC.head? = some '%' then (patC.drop 1).isSuffixOf nameC
  else if patC.contains '%' then
    match splitOnChar '%' patC with
    | [a, b] => a.isPrefixOf nameC && b.isSuffixOf nameC
    | _ => false
  else pat == licenseName

/-- The spec's description of the weight lookup: the weight of the first
rule in the ordered list whose pattern matches the license name. -/
def spec_weight_lookup (config : RiskConfig) (licenseName : String) :
    Option Int :=
  (config.find? fun pr => ruleMatches pr.1 licenseName).map fun pr => pr.2

/-- The per-index characterisation of the merged primary list: the record
at index `i₀ + k` keeps its path, licenses and copyrights, and its
`ecc_findings` are extended by the concatenated `ecc_findings` of the
secondary records whose path is indexed at `i₀ + k` in the primary list. -/
def mergeExtendFrom (A B : List ScanResult) : Nat → List ScanResult →
    List ScanResult
  | _, [] => []
  | i, r :: t =>
    { r with
      eccFindings := r.eccFindings ++
        ((B.filter fun b => lastIdxOf A b.filePath == some i).map
          fun b => b.eccFindings).flatten } ::
      mergeExtendFrom A B (i + 1) t

/-- The secondary records whose path does not occur in the primary list,
appended verbatim by the merge. -/
def newRecords (A B : List ScanResult) : List ScanResult :=
  B.filter fun b => (lastIdxOf A b.filePath).isNone

/-- Per-row low-confidence points: 15 below 0.5, 8 in `[0.5, 0.7)`, else 0. -/
def lowConfRowPoints (r : ScanResultRow) : Int :=
  match r.confidence with
  | none => 0
  | some c => if c < ratHalf then 15 else if c < ratSevenTenths then 8 else 0

/-- A row whose confidence is present and strictly below 0.5. -/
def rowBelowHalf (r : ScanResultRow) : Bool :=
  match r.confidence with
  | none => false
  | some c => decide (c < ratHalf)

/-- A row whose confidence is present and lies in `[0.5, 0.7)`. -/
def rowMidConf (r : ScanResultRow) : Bool :=
  match r.confidence with
  | none => false
  | some c => decide (ratHalf ≤ c) && decide (c < ratSevenTenths)

/-- Per-row export-control points: `critical → 20`, `high → 12`,
`medium → 6`, anything else `2` (missing severity defaults to `medium`). -/
def eccRowPoints (r : ScanResultRow) : Int :=
  let sev := r.riskSeverity.getD "medium"
  if sev == "critical" then 20
  else if sev == "high" then 12
  else if sev == "medium" then 6
  else 2

/-! ## Concrete inputs used by witnesses and counterexamples -/

/-- A freshly created scan row (`status = 'pending'`, everything else NULL). -/
def scanBase : Scan :=
  { status := .pending, errorMessage := none, startedAt := none,
    completedAt := none, fossologyStatus := .pending,
    semgrepStatus := .pending, fossologyStartedAt := none,
    fossologyCompletedAt := none, semgrepStartedAt := none,
    semgrepCompletedAt := none, fossologyError := none, semgrepError := none }

/-- A persisted license row with the given name, SPDX id and confidence. -/
def licRow (nm : String) (spdx : Option String) (conf : Option ℚ) :
    ScanResultRow :=
  { scanId := "scan", filePath := "file", resultType := "license",
    licenseName := some nm, licenseSpdxId := spdx, confidence := conf }

/-- The confidence value `0.3` of the spec's low-confidence scenario. -/
def conf03 : ℚ := ⟨3, 10, by norm_num, by norm_num⟩

/-- 16 license rows with 16 distinct names, SPDX ids present, no
confidence: the spec's diversity scenario. -/
def rows16 : List ScanResultRow :=
  ["L01", "L02", "L03", "L04", "L05", "L06", "L07", "L08", "L09", "L10",
    "L11", "L12", "L13", "L14", "L15", "L16"].map
    fun nm => licRow nm (some "ID") none

/-- 15 license rows with 15 distinct names (the boundary case the claim
C9 mispredicts). -/
def rows15 : List ScanResultRow :=
  ["L01", "L02", "L03", "L04", "L05", "L06", "L07", "L08", "L09", "L10",
    "L11", "L12", "L13", "L14", "L15"].map
    fun nm => licRow nm (some "ID") none

/-- A secondary-adapter record carrying one license finding and no
control-flag findings, for the merge counterexample. -/
def c3SecondaryRecord : ScanResult :=
  { filePath := "b.rs",
    licenses := [{ name := "MIT", spdxId := some "MIT", confidence := 1 }],
    copyrights := [], eccFindings := [] }

/-- A scan with one failed and one running sub-job. -/
def scanFailedInProg : Scan :=
  { scanBase with fossologyStatus := .failed, semgrepStatus := .inProgress }

/-- A completed scan whose `completed_at` is already set to instant 5. -/
def scanCompletedAt5 : Scan :=
  { scanBase with status := .completed, completedAt := some 5 }

/-- A scan with both sub-jobs completed and `completed_at` already set. -/
def scanBothCompleted5 : Scan :=
  { scanBase with
    fossologyStatus := .completed
    semgrepStatus := .completed
    completedAt := some 5 }

/-- An in-progress scan whose `started_at` is already set to instant 2. -/
def scanInProg2 : Scan :=
  { scanBase with status := .inProgress, startedAt := some 2 }

/-- A weight configuration whose two exact rules carry weight `2^30` each:
legal `i32` weights whose sum exceeds `i32::MAX`. -/
def cfgOverflow : RiskConfig :=
  [("AGPL-one", 1073741824), ("AGPL-two", 1073741824)]

/-- A license row matching the first overflow rule. -/
def rowOverflow1 : ScanResultRow := licRow "AGPL-one" (some "X") none

/-- A license row matching the second overflow rule. -/
def rowOverflow2 : ScanResultRow := licRow "AGPL-two" (some "X") none

/-- A parsed license response whose scanner and conclusion findings are all
the `No_license_found` placeholder. -/
def c10Response : FossologyLicenseResponse :=
  { filePath := "src/main.rs",
    findings := some
      { scanner := some ["No_license_found", "No_license_found"],
        conclusion := some ["No_license_found"] } }

/-! # Theorems -/

/-! ## C1 — overall status derivation -/

/-- C1: for every scan and every pair of sub-job statuses, recomputing the
overall status sets it to exactly the §4.3 precedence value — `completed`
iff both sub-statuses are completed, else `failed` if either failed, else
`in_progress` if either is in progress, else `pending`; in particular
`failed` takes precedence over `in_progress`. -/
theorem C1_overall_status_precedence (s : Scan) (now : Nat) :
    (s.update_overall_status now).status =
      specOverallTable s.fossologyStatus s.semgrepStatus ∧
    ((s.fossologyStatus = .failed ∨ s.semgrepStatus = .failed) →
      (s.update_overall_status now).status = .failed) := by
  constructor
  · cases hf : s.fossologyStatus <;> cases hs : s.semgrepStatus <;>
      simp [Scan.update_overall_status, deriveOverall, specOverallTable, hf, hs]
  · intro h
    cases hf : s.fossologyStatus <;> cases hs : s.semgrepStatus <;>
      simp_all [Scan.update_overall_status, deriveOverall]

/-- Witness for C1 at a concrete scan: one sub-job failed while the other is
still in progress, and the recomputed overall status is `failed`. -/
theorem C1_overall_status_precedence_witness :
    (scanFailedInProg.update_overall_status 5).status = .failed :=
  (C1_overall_status_precedence scanFailedInProg 5).2 (Or.inl rfl)

/-! ## C7 — timestamp write-once / idempotence -/

/-- C7 counterexample: a repeated `completed` status write re-stamps an
already-set `completed_at` (from `some 5` to `some 6`), and so does a
repeated overall-status recomputation while both sub-jobs are completed —
refuting "any repeated status write or repeated overall-status
recomputation leaves an already-set timestamp unchanged". -/
theorem C7_counterexample :
    (scanCompletedAt5.update_status .completed none 6).completedAt = some 6 ∧
    (scanBothCompleted5.update_overall_status 6).completedAt = some 6 ∧
    (some 6 : Option Nat) ≠ some 5 :=
  ⟨rfl, rfl, by decide⟩

/-- C7 (amended): `started_at` timestamps are written only on the
`pending → in_progress` first entry — repeated status writes (the status no
longer being `pending`), writes of other statuses, and overall-status
recomputations all leave them unchanged — whereas `completed_at` timestamps
are re-stamped by every `completed`/`failed` status write and by every
overall recomputation while both sub-jobs are `completed`. -/
theorem C7_timestamps (s : Scan) (st : Status) (err : Option String)
    (now : Nat) :
    (s.status ≠ .pending →
      (s.update_status st err now).startedAt = s.startedAt) ∧
    (st ≠ .inProgress →
      (s.update_status st err now).startedAt = s.startedAt) ∧
    (s.status = .pending → st = .inProgress →
      (s.update_status st err now).startedAt = some now) ∧
    (s.fossologyStatus ≠ .pending →
      (s.update_fossology_status st err now).fossologyStartedAt =
        s.fossologyStartedAt) ∧
    (s.semgrepStatus ≠ .pending →
      (s.update_semgrep_status st err now).semgrepStartedAt =
        s.semgrepStartedAt) ∧
    (s.update_overall_status now).startedAt = s.startedAt ∧
    (s.update_overall_status now).fossologyStartedAt = s.fossologyStartedAt ∧
    (s.update_overall_status now).semgrepStartedAt = s.semgrepStartedAt ∧
    (st = .completed ∨ st = .failed →
      (s.update_status st err now).completedAt = some now) ∧
    (st = .completed ∨ st = .failed →
      (s.update_fossology_status st err now).fossologyCompletedAt =
        some now) ∧
    (s.fossologyStatus = .completed → s.semgrepStatus = .completed →
      (s.update_overall_status now).completedAt = some now) := by
  refine ⟨?_, ?_, ?_, ?_, ?_, rfl, rfl, rfl, ?_, ?_, ?_⟩
  · intro h
    simp only [Scan.update_status]
    rw [if_neg]
    rintro ⟨h1, -⟩
    exact h h1
  · intro h
    simp only [Scan.update_status]
    rw [if_neg]
    rintro ⟨-, h2⟩
    exact h h2
  · intro h1 h2
    simp [Scan.update_status, h1, h2]
  · intro h
    simp only [Scan.update_fossology_status]
    rw [if_neg]
    rintro ⟨h1, -⟩
    exact h h1
  · intro h
    simp only [Scan.update_semgrep_status]
    rw [if_neg]
    rintro ⟨h1, -⟩
    exact h h1
  · intro h
    simp [Scan.update_status, h]
  · intro h
    simp [Scan.update_fossology_status, h]
  · intro h1 h2
    simp [Scan.update_overall_status, h1, h2]

/-- Witness for C7 (amended): a scan already in progress keeps its
`started_at = some 2` across a repeated write, while the same write
re-stamps `completed_at`. -/
theorem C7_timestamps_witness :
    (scanInProg2.update_status .completed none 9).startedAt = some 2 ∧
    (scanInProg2.update_status .completed none 9).completedAt = some 9 := by
  obtain ⟨h1, -, -, -, -, -, -, -, h9, -, -⟩ :=
    C7_timestamps scanInProg2 .completed none 9
  exact ⟨h1 (by decide), h9 (Or.inl rfl)⟩

/-! ## C6 — coordinator behaviour on adapter failure -/

/-- C6: when either adapter's scan errors, the coordinator persists no
findings and the scan ends with overall status `failed`; the failing
adapter's error string is retained as that sub-job's error with sub-status
`failed`; and the other adapter's result is still acted on (its sub-job
still reaches `completed` when it succeeded) — both results having been
awaited before the failure is acted on, as `runScanJob` consumes both. -/
theorem C6_adapter_failure (s : Scan)
    (fossRes semRes : Except String (List ScanResult)) (now : Nat)
    (h : (∃ e, fossRes = .error e) ∨ (∃ e, semRes = .error e)) :
    (runScanJob s fossRes semRes now).2 = [] ∧
    (runScanJob s fossRes semRes now).1.status = .failed ∧
    (∀ e, fossRes = .error e →
      (runScanJob s fossRes semRes now).1.fossologyStatus = .failed ∧
      (runScanJob s fossRes semRes now).1.fossologyError = some e) ∧
    (∀ e, semRes = .error e →
      (runScanJob s fossRes semRes now).1.semgrepStatus = .failed ∧
      (runScanJob s fossRes semRes now).1.semgrepError = some e) ∧
    (∀ rs, fossRes = .ok rs →
      (runScanJob s fossRes semRes now).1.fossologyStatus = .completed) ∧
    (∀ rs, semRes = .ok rs →
      (runScanJob s fossRes semRes now).1.semgrepStatus = .completed) := by
  rcases fossRes with e | fr <;> rcases semRes with e' | sr
  · exact ⟨rfl, rfl, fun x hx => ⟨rfl, by injection hx with hh; subst hh; rfl⟩,
      fun x hx => ⟨rfl, by injection hx with hh; subst hh; rfl⟩,
      fun x hx => by simp at hx, fun x hx => by simp at hx⟩
  · exact ⟨rfl, rfl, fun x hx => ⟨rfl, by injection hx with hh; subst hh; rfl⟩,
      fun x hx => by simp at hx, fun x hx => by simp at hx,
      fun x _ => rfl⟩
  · exact ⟨rfl, rfl, fun x hx => by simp at hx,
      fun x hx => ⟨rfl, by injection hx with hh; subst hh; rfl⟩,
      fun x _ => rfl, fun x hx => by simp at hx⟩
  · rcases h with ⟨e, he⟩ | ⟨e, he⟩ <;> simp at he

/-- Witness for C6: fossology errors with "fossology down" while semgrep
succeeds with no findings; nothing is persisted, the overall status is
`failed`, the fossology error is retained and the semgrep sub-job still
completes. -/
theorem C6_adapter_failure_witness :
    (runScanJob scanBase (.error "fossology down") (.ok []) 7).2 = [] ∧
    (runScanJob scanBase (.error "fossology down") (.ok []) 7).1.status =
      .failed ∧
    (runScanJob scanBase (.error "fossology down") (.ok []) 7).1.fossologyError
      = some "fossology down" ∧
    (runScanJob scanBase (.error "fossology down") (.ok []) 7).1.semgrepStatus
      = .completed := by
  obtain ⟨h1, h2, h3, -, -, h6⟩ :=
    C6_adapter_failure scanBase (.error "fossology down") (.ok []) 7
      (Or.inl ⟨_, rfl⟩)
  exact ⟨h1, h2, (h3 _ rfl).2, h6 [] rfl⟩

/-! ## C3 — result merge -/

lemma mergeExtendFrom_nilB (A : List ScanResult) :
    ∀ (C : List ScanResult) (i0 : Nat), mergeExtendFrom A [] i0 C = C := by
  intro C
  induction C with
  | nil => intro i0; rfl
  | cons r t ih =>
    intro i0
    simp [mergeExtendFrom, ih]

lemma mergeExtendFrom_cons_of_no_idx (A : List ScanResult) (b : ScanResult)
    (B' : List ScanResult) :
    ∀ (C : List ScanResult) (i0 : Nat),
      (∀ k, i0 ≤ k → ¬ lastIdxOf A b.filePath = some k) →
      mergeExtendFrom A (b :: B') i0 C = mergeExtendFrom A B' i0 C := by
  intro C
  induction C with
  | nil => intro i0 _; rfl
  | cons r t ih =>
    intro i0 h
    have hb : (lastIdxOf A b.filePath == some i0) = false := by
      rw [beq_eq_false_iff_ne]
      exact h i0 le_rfl
    simp [mergeExtendFrom, List.filter_cons, hb,
      ih (i0 + 1) (fun k hk => h k (by omega))]

/-- The extension function applied to an updated element commutes with
consing the matching secondary record onto the secondary list. -/
lemma mergeExtendFrom_modifyAt (A : List ScanResult) (b : ScanResult)
    (B' : List ScanResult) :
    ∀ (C : List ScanResult) (j i0 : Nat),
      lastIdxOf A b.filePath = some (i0 + j) →
      mergeExtendFrom A B' i0 (modifyAt C j
        (fun r => { r with eccFindings := r.eccFindings ++ b.eccFindings })) =
      mergeExtendFrom A (b :: B') i0 C := by
  intro C
  induction C with
  | nil => intro j i0 _; cases j <;> rfl
  | cons r t ih =>
    intro j i0 h
    cases j with
    | zero =>
      have hb : (lastIdxOf A b.filePath == some i0) = true := by
        simp only [beq_iff_eq]
        simpa using h
      have htail :
          mergeExtendFrom A B' (i0 + 1) t =
            mergeExtendFrom A (b :: B') (i0 + 1) t := by
        refine (mergeExtendFrom_cons_of_no_idx A b B' t (i0 + 1) ?_).symm
        intro k hk hc
        rw [h] at hc
        injection hc with hc
        omega
      simp only [modifyAt, mergeExtendFrom, List.filter_cons, hb,
        List.map_cons, List.flatten_cons, List.cons.injEq]
      refine ⟨by simp [List.append_assoc], htail⟩
    | succ j' =>
      have hb : (lastIdxOf A b.filePath == some i0) = false := by
        rw [beq_eq_false_iff_ne]
        intro hc
        rw [h] at hc
        injection hc with hc
        omega
      simp only [modifyAt, mergeExtendFrom, List.filter_cons, hb,
        Bool.false_eq_true, if_false, List.cons.injEq]
      exact ⟨trivial, ih j' (i0 + 1) (by rw [h]; congr 1; omega)⟩

/-- The merge fold, characterised for an arbitrary accumulator. -/
lemma merge_fold_spec (A : List ScanResult) :
    ∀ (B C D : List ScanResult),
      B.foldl (mergeStep A) (C, D) =
        (mergeExtendFrom A B 0 C, D ++ newRecords A B) := by
  intro B
  induction B with
  | nil =>
    intro C D
    simp [newRecords, mergeExtendFrom_nilB]
  | cons b B' ih =>
    intro C D
    simp only [List.foldl_cons]
    cases hidx : lastIdxOf A b.filePath with
    | none =>
      rw [show mergeStep A (C, D) b = (C, D ++ [b]) from by
        simp [mergeStep, hidx]]
      rw [ih]
      have hskip := mergeExtendFrom_cons_of_no_idx A b B' C 0
        (fun k _ hc => by rw [hidx] at hc; cases hc)
      have hnone : (lastIdxOf A b.filePath).isNone = true := by
        simp [hidx]
      simp [newRecords, List.filter_cons, hnone, hskip]
    | some j =>
      rw [show mergeStep A (C, D) b =
          (modifyAt C j
            (fun r =>
              { r with eccFindings := r.eccFindings ++ b.eccFindings }), D)
        from by simp [mergeStep, hidx]]
      rw [ih]
      have hnone : (lastIdxOf A b.filePath).isNone = false := by
        simp [hidx]
      refine Prod.ext ?_ ?_
      · exact mergeExtendFrom_modifyAt A b B' C j 0 (by simpa using hidx)
      · simp [newRecords, List.filter_cons, hnone]

lemma mergeExtendFrom_length (A B : List ScanResult) :
    ∀ (C : List ScanResult) (i0 : Nat),
      (mergeExtendFrom A B i0 C).length = C.length := by
  intro C
  induction C with
  | nil => intro i0; rfl
  | cons r t ih => intro i0; simp [mergeExtendFrom, ih]

/-- C3 counterexample: merging an empty primary list with one secondary
record that carries a license finding adds that record verbatim — its
license list is non-empty, refuting "that new record carrying only its
control-flag findings". -/
theorem C3_counterexample :
    merge_scan_results [] [c3SecondaryRecord] = [c3SecondaryRecord] ∧
    c3SecondaryRecord.licenses ≠ [] :=
  ⟨rfl, by decide⟩

/-- C3 (amended): the merge keeps every primary record in place — same
path, licenses and copyrights, with its control-flag findings extended, in
secondary order and without deduplication, by those of every secondary
record whose path is indexed at that position — and then appends, verbatim
and one per record, every secondary record whose path does not occur in the
primary list (such a record keeps all of its findings, licenses and
copyrights included); secondary license/copyright findings for indexed
paths are discarded, the output length is the primary length plus the
number of unindexed secondary records, and merging with an empty secondary
list returns the primary list unchanged. -/
theorem C3_merge_characterization (A B : List ScanResult) :
    merge_scan_results A B = mergeExtendFrom A B 0 A ++ newRecords A B ∧
    (merge_scan_results A B).length = A.length + (newRecords A B).length ∧
    merge_scan_results A [] = A := by
  refine ⟨?_, ?_, ?_⟩
  · rw [merge_scan_results, merge_fold_spec]
    rfl
  · rw [merge_scan_results, merge_fold_spec]
    simp [mergeExtendFrom_length]
  · rw [merge_scan_results, merge_fold_spec]
    simp [newRecords, mergeExtendFrom_nilB]

/-! ## C4 — weight-rule pattern lookup -/

/-- One loop iteration of `get_license_weight` is: return this rule's weight
when its pattern matches, otherwise continue down the list. -/
lemma get_license_weight_cons (pat : String) (w : Int) (rest : RiskConfig)
    (name : String) :
    get_license_weight ((pat, w) :: rest) name =
      if ruleMatches pat name then some w
      else get_license_weight rest name := by
  simp only [get_license_weight, ruleMatches]
  by_cases h1 : pat.data.getLast? = some '%'
  · by_cases h2 : pat.data.dropLast <+: name.data <;> simp [h1, h2]
  · by_cases h3 : pat.data.head? = some '%'
    · by_cases h4 : pat.data.tail <:+ name.data <;> simp [h1, h3, h4]
    · by_cases h5 : '%' ∈ pat.data
      · rcases hsp : splitOnChar '%' pat.data with _ | ⟨a, _ | ⟨b, _ | _⟩⟩
        · simp [h1, h3, h5, hsp]
        · simp [h1, h3, h5, hsp]
        · by_cases h6 : a <+: name.data
          · by_cases h7 : b <:+ name.data <;> simp [h1, h3, h5, hsp, h6, h7]
          · simp [h1, h3, h5, hsp, h6]
        · simp [h1, h3, h5, hsp]
      · by_cases h8 : pat = name
        · subst h8
          simp [h1, h3, h5]
        · simp [h1, h3, h5, h8]

/-- `get_license_weight` refines the spec's first-match lookup. -/
lemma get_license_weight_eq_spec (cfg : RiskConfig) (name : String) :
    get_license_weight cfg name = spec_weight_lookup cfg name := by
  induction cfg with
  | nil => rfl
  | cons pr rest ih =>
    obtain ⟨pat, w⟩ := pr
    rw [get_license_weight_cons]
    by_cases h : ruleMatches pat name
    · simp [spec_weight_lookup, List.find?_cons_of_pos, h]
    · rw [if_neg h, ih]
      simp only [spec_weight_lookup]
      rw [List.find?_cons_of_neg]
      simpa using h

lemma mem_of_mem_pushIfAbsent {x y : String} {l : List String}
    (h : x ∈ pushIfAbsent l y) : x ∈ l ∨ x = y := by
  unfold pushIfAbsent at h
  split_ifs at h
  · exact Or.inl h
  · rcases List.mem_append.mp h with h | h
    · exact Or.inl h
    · simp only [List.mem_singleton] at h
      exact Or.inr h

/-- A license name with no matching rule is never pushed into either
category list by one collection step. -/
lemma collectStep_not_mem {cfg : RiskConfig} {name : String}
    (hw : get_license_weight cfg name = none) (st : LicCollect)
    (r : ScanResultRow) (hc : name ∉ st.copyleft) (hu : name ∉ st.unknown) :
    name ∉ (collectStep cfg st r).copyleft ∧
      name ∉ (collectStep cfg st r).unknown := by
  cases hn : r.licenseName with
  | none =>
    simp only [collectStep, hn]
    exact ⟨hc, hu⟩
  | some nm =>
    cases hl : get_license_weight cfg nm with
    | none =>
      simp only [collectStep, hn, hl]
      exact ⟨hc, hu⟩
    | some w =>
      have hne : name ≠ nm := by
        intro he
        rw [he, hl] at hw
        cases hw
      by_cases hpos : 0 < w
      · by_cases hcl : is_copyleft nm = true
        · simp only [collectStep, hn, hl, hpos, hcl, if_true]
          refine ⟨?_, hu⟩
          intro hmem
          rcases mem_of_mem_pushIfAbsent hmem with h | h
          · exact hc h
          · exact hne h
        · by_cases hun : is_unknown_or_proprietary nm = true
          · simp only [collectStep, hn, hl, hpos, hcl, hun, if_true,
              Bool.false_eq_true, if_false]
            refine ⟨hc, ?_⟩
            intro hmem
            rcases mem_of_mem_pushIfAbsent hmem with h | h
            · exact hu h
            · exact hne h
          · simp only [collectStep, hn, hl, hpos, hcl, hun,
              Bool.false_eq_true, if_false, if_true]
            exact ⟨hc, hu⟩
      · simp only [collectStep, hn, hl, hpos, if_false]
        exact ⟨hc, hu⟩

/-- A license name with no matching rule is in neither category list after
the whole collection fold. -/
lemma collect_not_mem {cfg : RiskConfig} {name : String}
    (hw : get_license_weight cfg name = none) :
    ∀ (rows : List ScanResultRow) (st : LicCollect),
      name ∉ st.copyleft → name ∉ st.unknown →
      name ∉ (rows.foldl (collectStep cfg) st).copyleft ∧
        name ∉ (rows.foldl (collectStep cfg) st).unknown := by
  intro rows
  induction rows with
  | nil => intro st h1 h2; exact ⟨h1, h2⟩
  | cons r t ih =>
    intro st h1 h2
    obtain ⟨h1', h2'⟩ := collectStep_not_mem hw st r h1 h2
    exact ih (collectStep cfg st r) h1' h2'

/-- C4: the weight lookup returns the weight of the first rule whose
pattern matches — trailing `%` is a prefix rule, leading `%` a suffix rule,
`a%b` a starts-with/ends-with rule, `%`-free an exact rule — and a license
name matching no rule contributes zero points and appears in neither
license-category factor list; with the spec's own instances: `GPL%` matches
`GPL-3.0-only`, `%Commons` matches exactly the names ending in `Commons`,
and `MIT` matches only the literal `MIT`. -/
theorem C4_weight_lookup (cfg : RiskConfig) (name : String) :
    get_license_weight cfg name = spec_weight_lookup cfg name ∧
    (get_license_weight cfg name = none →
      ∀ results : List ScanResultRow,
        name ∉ (collectLicenses cfg results).copyleft ∧
        name ∉ (collectLicenses cfg results).unknown) ∧
    get_license_weight [("GPL%", 20)] "GPL-3.0-only" = some 20 ∧
    ruleMatches "%Commons" "Creative Commons" = true ∧
    ruleMatches "%Commons" "Commons Clause" = false ∧
    get_license_weight [("MIT", 5)] "MIT" = some 5 ∧
    get_license_weight [("MIT", 5)] "MIT-0" = none ∧
    get_license_weight [("a%b", 9)] "axxb" = some 9 ∧
    get_license_weight [("a%b", 9)] "abba-x" = none := by
  refine ⟨get_license_weight_eq_spec cfg name, ?_, by decide, by decide,
    by decide, by decide, by decide, by decide, by decide⟩
  intro h results
  exact collect_not_mem h (licenseResults results) ⟨[], [], []⟩
    (by simp) (by simp)

/-- Witness for C4: `MIT` matches no rule in the config `[("GPL%", 20)]`,
so after collecting a persisted `MIT` license row it is in neither the
copyleft nor the unknown category list. -/
theorem C4_weight_lookup_witness :
    "MIT" ∉ (collectLicenses [("GPL%", 20)]
      [licRow "MIT" (some "MIT") none]).copyleft ∧
    "MIT" ∉ (collectLicenses [("GPL%", 20)]
      [licRow "MIT" (some "MIT") none]).unknown :=
  (C4_weight_lookup [("GPL%", 20)] "MIT").2.1 (by decide)
    [licRow "MIT" (some "MIT") none]

/-! ## C5 — readiness-poll termination -/

lemma backoffDelay_late (k : Nat) (h : 6 ≤ k) : backoffDelay k = 30000 := by
  obtain ⟨k', rfl⟩ : ∃ k', k = k' + 6 := ⟨k - 6, by omega⟩
  rfl

lemma backoffDelay_ge (k : Nat) : 1000 ≤ backoffDelay k := by
  by_cases h : 6 ≤ k
  · rw [backoffDelay_late k h]
    omega
  · interval_cases k <;> norm_num [backoffDelay]

/-- Against a service that never reports the upload ready, the fuelled loop
always reaches the timeout failure, and the reported elapsed time exceeds
the 300-second ceiling. -/
lemma waitRun_times_out (σ : Nat → PollResponse) (δ : Nat → Nat)
    (hσ : ∀ k, σ k ≠ .readyOk) :
    ∀ (fuel a elapsed : Nat), elapsed ≤ 300000 →
      300000 + 1000 < elapsed + 1000 * fuel →
      ∃ r n, waitRun σ δ fuel a elapsed = some (.error (r, n)) ∧
        300000 < r := by
  intro fuel
  induction fuel with
  | zero =>
    intro a e he hlt
    exact absurd hlt (by omega)
  | succ f ih =>
    intro a e he hlt
    have hb := backoffDelay_ge (a + 1)
    have hrec : ∃ r n,
        waitRun σ δ f (a + 1) (e + δ (a + 1) + backoffDelay (a + 1)) =
          some (.error (r, n)) ∧ 300000 < r := by
      by_cases h2 : e + δ (a + 1) + backoffDelay (a + 1) ≤ 300000
      · exact ih (a + 1) _ h2 (by omega)
      · cases f with
        | zero => exact absurd hlt (by omega)
        | succ f' =>
          refine ⟨e + δ (a + 1) + backoffDelay (a + 1), a + 1, ?_, by omega⟩
          simp only [waitRun]
          rw [if_pos (by omega)]
          simp
    simp only [waitRun]
    rw [if_neg (by omega)]
    cases hs : σ (a + 1) with
    | readyOk => exact absurd hs (hσ (a + 1))
    | okNotReady => exact hrec
    | parseErr => exact hrec
    | status503 => exact hrec
    | otherStatus => exact hrec

/-- C5 counterexample: with instantaneous status requests and a service
that always answers `503`, the readiness poll times out only at the first
ceiling check that follows 330 seconds of sleeping — the `Failed` error
carries elapsed time 330000 ms (15 attempts), outside the claimed 300±1
seconds. -/
theorem C5_counterexample :
    wait_for_upload_ready_run (fun _ => .status503) (fun _ => 0) =
      some (.error (330000, 15)) ∧
    ¬ (299000 ≤ 330000 ∧ 330000 ≤ 301000) :=
  ⟨rfl, by omega⟩

/-- C5 (amended): whenever the remote service never reports the upload
ready — in particular when it always answers `503`, which is treated as
still-processing and never as an error — the poll terminates with a
`Failed` error carrying the elapsed time and the attempt count, the
elapsed time exceeding the 300 s ceiling; the sleep schedule is 1 s, 2 s,
4 s, 8 s and 15 s for attempts 1-5 and 30 s from attempt 6 on.  The
elapsed time at failure is 330 s (after 15 attempts) when the status
requests are instantaneous, and lands within 300-301 s (after 14
attempts = 5 backoff-schedule attempts plus 9 fixed-interval attempts)
only when the cumulative request overhead through attempt 14 lies in
(0, 1] s — e.g. 10 ms per request gives 300.14 s. -/
theorem C5_readiness_poll (σ : Nat → PollResponse) (δ : Nat → Nat)
    (hσ : ∀ k, σ k ≠ .readyOk) :
    (∃ r n, wait_for_upload_ready_run σ δ = some (.error (r, n)) ∧
      300000 < r) ∧
    backoffDelay 1 = 1000 ∧ backoffDelay 2 = 2000 ∧ backoffDelay 3 = 4000 ∧
    backoffDelay 4 = 8000 ∧ backoffDelay 5 = 15000 ∧
    (∀ k, 6 ≤ k → backoffDelay k = 30000) ∧
    wait_for_upload_ready_run (fun _ => .status503) (fun _ => 0) =
      some (.error (330000, 15)) ∧
    wait_for_upload_ready_run (fun _ => .status503) (fun _ => 10) =
      some (.error (300140, 14)) := by
  refine ⟨?_, rfl, rfl, rfl, rfl, rfl, backoffDelay_late, rfl, rfl⟩
  exact waitRun_times_out σ δ hσ 1000 0 0 (by omega) (by omega)

/-- Witness for C5 (amended): a service that forever answers ok-but-not-
ready, with instantaneous requests, makes the poll fail with an elapsed
time beyond the ceiling. -/
theorem C5_readiness_poll_witness :
    ∃ r n, wait_for_upload_ready_run (fun _ => .okNotReady) (fun _ => 0) =
      some (.error (r, n)) ∧ 300000 < r :=
  (C5_readiness_poll (fun _ => .okNotReady) (fun _ => 0)
    (fun _ h => PollResponse.noConfusion h)).1

/-! ## C10 — `No_license_found` filtering -/

lemma license_of_mem_convertLicenseList :
    ∀ {names : List String} {f : ClientLicenseFinding},
      f ∈ convertLicenseList names → f.license ≠ "No_license_found" := by
  intro names
  induction names with
  | nil =>
    intro f h
    simp [convertLicenseList] at h
  | cons nm t ih =>
    intro f h
    simp only [convertLicenseList, List.filterMap_cons] at h
    by_cases h1 : nm = "No_license_found"
    · simp only [h1, beq_self_eq_true, if_true] at h
      exact ih h
    · have h1' : (nm == "No_license_found") = false :=
        beq_eq_false_iff_ne.mpr h1
      simp only [h1', Bool.false_eq_true, if_false] at h
      rcases List.mem_cons.mp h with hh | hh
      · subst hh
        simpa using h1
      · exact ih hh

lemma convertLicenseList_all_placeholder {names : List String}
    (h : ∀ nm ∈ names, nm = "No_license_found") :
    convertLicenseList names = [] := by
  induction names with
  | nil => rfl
  | cons nm t ih =>
    have h1 : (nm == "No_license_found") = true := by
      simp [h nm (List.mem_cons_self nm t)]
    simp only [convertLicenseList, List.filterMap_cons, h1, if_true]
    exact ih fun x hx => h x (List.mem_cons_of_mem nm hx)

/-- The shape of a successful response conversion. -/
lemma convertLicenseResponse_some {fr : FossologyLicenseResponse}
    {lr : LicenseResult} (h : convertLicenseResponse fr = some lr) :
    ∃ fd, fr.findings = some fd ∧
      lr.findings = convertLicenseList (fd.scanner.getD []) ++
        convertLicenseList (fd.conclusion.getD []) := by
  unfold convertLicenseResponse at h
  cases hfd : fr.findings with
  | none =>
    rw [hfd] at h
    cases h
  | some fd =>
    rw [hfd] at h
    replace h : (if (convertLicenseList (fd.scanner.getD []) ++
          convertLicenseList (fd.conclusion.getD [])).isEmpty = true then
          (none : Option LicenseResult)
        else
          some (LicenseResult.mk fr.filePath
            (convertLicenseList (fd.scanner.getD []) ++
              convertLicenseList (fd.conclusion.getD [])))) = some lr := h
    by_cases hemp : (convertLicenseList (fd.scanner.getD []) ++
        convertLicenseList (fd.conclusion.getD [])).isEmpty = true
    · rw [if_pos hemp] at h
      cases h
    · rw [if_neg hemp] at h
      injection h with h
      subst h
      exact ⟨fd, rfl, rfl⟩

/-- C10: the remote adapter's license conversion skips every reported
license named `No_license_found`, in both the scanner and the conclusion
lists — no produced finding ever carries that name — and a response whose
reported findings are all `No_license_found` yields no result record at
all; yet `No_license_found` is a member of the scoring engine's
unknown/proprietary keyword set. -/
theorem C10_no_license_found (resps : List FossologyLicenseResponse) :
    (∀ lr ∈ get_licenses_convert resps, ∀ f ∈ lr.findings,
      f.license ≠ "No_license_found") ∧
    (∀ fr : FossologyLicenseResponse, ∀ fd : FossologyFindings,
      fr.findings = some fd →
      (∀ nm ∈ fd.scanner.getD [], nm = "No_license_found") →
      (∀ nm ∈ fd.conclusion.getD [], nm = "No_license_found") →
      convertLicenseResponse fr = none) ∧
    is_unknown_or_proprietary "No_license_found" = true := by
  refine ⟨?_, ?_, by decide⟩
  · intro lr hlr f hf
    rcases List.mem_filterMap.mp hlr with ⟨fr, _, hfr⟩
    obtain ⟨fd, -, hfind⟩ := convertLicenseResponse_some hfr
    rw [hfind] at hf
    rcases List.mem_append.mp hf with h | h
    · exact license_of_mem_convertLicenseList h
    · exact license_of_mem_convertLicenseList h
  · intro fr fd hfd hsc hcon
    unfold convertLicenseResponse
    rw [hfd]
    simp only [convertLicenseList_all_placeholder hsc,
      convertLicenseList_all_placeholder hcon, List.append_nil,
      List.isEmpty_nil, if_true]

/-- Witness for C10: a file whose scanner and conclusion findings are all
`No_license_found` yields no record, and the conversion of the one-response
list is empty. -/
theorem C10_no_license_found_witness :
    convertLicenseResponse c10Response = none ∧
    get_licenses_convert [c10Response] = [] := by
  have h := (C10_no_license_found [c10Response]).2.1 c10Response
    { scanner := some ["No_license_found", "No_license_found"],
      conclusion := some ["No_license_found"] }
    rfl (by decide) (by decide)
  refine ⟨h, ?_⟩
  simp [get_licenses_convert, h]

/-! ## C9 — license-diversity bucket -/

/-- C9 counterexample: 15 distinct license names (the claim's "15 or more"
boundary) contribute 6 diversity points, not 10, and the whole score of the
15-name scan is 6. -/
theorem C9_counterexample :
    (uniqueLicenses rows15).length = 15 ∧
    diversityPoints rows15 = 6 ∧
    (calculate_risk_score [] rows15).score = 6 ∧
    (6 : Int) ≠ 10 :=
  ⟨by decide, by decide, by decide, by decide⟩

/-- C9 (amended): the license-diversity contribution is 10 when the number
of distinct license names is 16 or more (`> 15` in the code), 6 for 10-15,
3 for 5-9 and 0 below 5; 16 distinct license names with no other signals
score exactly 10 with level `low`. -/
theorem C9_diversity (results : List ScanResultRow) :
    (16 ≤ (uniqueLicenses results).length → diversityPoints results = 10) ∧
    (10 ≤ (uniqueLicenses results).length ∧
        (uniqueLicenses results).length ≤ 15 →
      diversityPoints results = 6) ∧
    (5 ≤ (uniqueLicenses results).length ∧
        (uniqueLicenses results).length ≤ 9 →
      diversityPoints results = 3) ∧
    ((uniqueLicenses results).length < 5 → diversityPoints results = 0) ∧
    (calculate_risk_score [] rows16).score = 10 ∧
    (calculate_risk_score [] rows16).level = "low" := by
  refine ⟨?_, ?_, ?_, ?_, by decide, by decide⟩ <;>
    (intro h
     unfold diversityPoints diversityBucket
     split_ifs <;> omega)

/-- Witness for C9 (amended): the 16-name scan gets exactly the 10
diversity points. -/
theorem C9_diversity_witness : diversityPoints rows16 = 10 :=
  (C9_diversity rows16).1 (by decide)

/-! ## C8 — low-confidence scoring -/

lemma ratHalf_lt_ratSevenTenths : ratHalf < ratSevenTenths := by decide

lemma lowConfStep_points (acc : LowConfAcc) (r : ScanResultRow) :
    (lowConfStep acc r).points = acc.points + lowConfRowPoints r := by
  unfold lowConfStep lowConfRowPoints
  cases hc : r.confidence with
  | none => simp
  | some c =>
    by_cases h1 : c < ratHalf
    · simp [h1]
    · by_cases h2 : c < ratSevenTenths <;> simp [h1, h2]

lemma lowConfStep_critical (acc : LowConfAcc) (r : ScanResultRow) :
    (lowConfStep acc r).criticalCount =
      acc.criticalCount + (if rowBelowHalf r then 1 else 0) := by
  unfold lowConfStep rowBelowHalf
  cases hc : r.confidence with
  | none => simp
  | some c =>
    by_cases h1 : c < ratHalf
    · simp [h1]
    · by_cases h2 : c < ratSevenTenths <;> simp [h1, h2]

lemma lowConfStep_medium (acc : LowConfAcc) (r : ScanResultRow) :
    (lowConfStep acc r).mediumCount =
      acc.mediumCount + (if rowMidConf r then 1 else 0) := by
  unfold lowConfStep rowMidConf
  cases hc : r.confidence with
  | none => simp
  | some c =>
    by_cases h1 : c < ratHalf
    · have h1' : ¬ ratHalf ≤ c := not_le.mpr h1
      simp [h1, h1']
    · have h1' : ratHalf ≤ c := not_lt.mp h1
      by_cases h2 : c < ratSevenTenths <;> simp [h1, h1', h2]

lemma lowConf_foldl (rows : List ScanResultRow) :
    ∀ acc : LowConfAcc,
      (rows.foldl lowConfStep acc).points =
        acc.points + (rows.map lowConfRowPoints).sum ∧
      (rows.foldl lowConfStep acc).criticalCount =
        acc.criticalCount + rows.countP rowBelowHalf ∧
      (rows.foldl lowConfStep acc).mediumCount =
        acc.mediumCount + rows.countP rowMidConf := by
  induction rows with
  | nil => intro acc; simp
  | cons r t ih =>
    intro acc
    simp only [List.foldl_cons, List.map_cons, List.sum_cons,
      List.countP_cons]
    obtain ⟨hp, hc, hm⟩ := ih (lowConfStep acc r)
    refine ⟨?_, ?_, ?_⟩
    · rw [hp, lowConfStep_points]; ring
    · rw [hc, lowConfStep_critical]
      by_cases h : rowBelowHalf r <;> simp [h] <;> omega
    · rw [hm, lowConfStep_medium]
      by_cases h : rowMidConf r <;> simp [h] <;> omega

lemma lowConfRowPoints_split (r : ScanResultRow) :
    lowConfRowPoints r =
      15 * (if rowBelowHalf r then (1 : Int) else 0) +
        8 * (if rowMidConf r then (1 : Int) else 0) := by
  unfold lowConfRowPoints rowBelowHalf rowMidConf
  cases hc : r.confidence with
  | none => simp
  | some c =>
    by_cases h1 : c < ratHalf
    · have h1' : ¬ ratHalf ≤ c := not_le.mpr h1
      simp [h1, h1']
    · have h1' : ratHalf ≤ c := not_lt.mp h1
      by_cases h2 : c < ratSevenTenths <;> simp [h1, h1', h2]

lemma sum_lowConfRowPoints (rows : List ScanResultRow) :
    (rows.map lowConfRowPoints).sum =
      15 * (rows.countP rowBelowHalf : Int) +
        8 * (rows.countP rowMidConf : Int) := by
  induction rows with
  | nil => simp
  | cons r t ih =>
    simp only [List.map_cons, List.sum_cons, List.countP_cons, ih,
      lowConfRowPoints_split r]
    by_cases h1 : rowBelowHalf r <;> by_cases h2 : rowMidConf r <;>
      simp [h1, h2] <;> push_cast <;> try ring

/-- Rows counted below-0.5 are the same whether counted among all license
rows or only among the `< 0.7`-filtered rows. -/
lemma countP_below_filter (results : List ScanResultRow) :
    (lowConfidenceRows results).countP rowBelowHalf =
      (licenseResults results).countP rowBelowHalf := by
  unfold lowConfidenceRows
  rw [List.countP_filter]
  refine List.countP_congr fun r _ => ?_
  unfold rowBelowHalf
  cases hc : r.confidence with
  | none => simp
  | some c =>
    by_cases h1 : c < ratHalf
    · have h2 : c < ratSevenTenths := lt_trans h1 ratHalf_lt_ratSevenTenths
      simp [h1, h2]
    · simp [h1]

lemma countP_mid_filter (results : List ScanResultRow) :
    (lowConfidenceRows results).countP rowMidConf =
      (licenseResults results).countP rowMidConf := by
  unfold lowConfidenceRows
  rw [List.countP_filter]
  refine List.countP_congr fun r _ => ?_
  unfold rowMidConf
  cases hc : r.confidence with
  | none => simp
  | some c => by_cases h2 : c < ratSevenTenths <;> simp [h2]

lemma lowConfAcc_criticalCount (results : List ScanResultRow) :
    (lowConfAcc results).criticalCount =
      (licenseResults results).countP rowBelowHalf := by
  unfold lowConfAcc
  rw [(lowConf_foldl _ _).2.1, countP_below_filter]
  simp

lemma lowConfidencePoints_eq_counts (results : List ScanResultRow) :
    lowConfidencePoints results =
      15 * ((licenseResults results).countP rowBelowHalf : Int) +
        8 * ((licenseResults results).countP rowMidConf : Int) := by
  unfold lowConfidencePoints lowConfAcc
  rw [(lowConf_foldl _ _).1, sum_lowConfRowPoints, countP_below_filter,
    countP_mid_filter]
  simp

lemma copyleftFactorList_category {cfg : RiskConfig}
    {results : List ScanResultRow} :
    ∀ f ∈ copyleftFactorList cfg results, f.category = "copyleft_license" := by
  intro f hf
  simp only [copyleftFactorList] at hf
  split_ifs at hf <;>
    first
      | (rw [List.mem_singleton] at hf; subst hf; rfl)
      | simp at hf

lemma unknownFactorList_category {cfg : RiskConfig}
    {results : List ScanResultRow} :
    ∀ f ∈ unknownFactorList cfg results, f.category = "unknown_license" := by
  intro f hf
  simp only [unknownFactorList] at hf
  split_ifs at hf <;>
    first
      | (rw [List.mem_singleton] at hf; subst hf; rfl)
      | simp at hf

lemma missingFactorList_category {results : List ScanResultRow} :
    ∀ f ∈ missingFactorList results, f.category = "missing_spdx_id" := by
  intro f hf
  simp only [missingFactorList] at hf
  split_ifs at hf <;>
    first
      | (rw [List.mem_singleton] at hf; subst hf; rfl)
      | simp at hf

lemma eccCriticalHighFactorList_category {results : List ScanResultRow} :
    ∀ f ∈ eccCriticalHighFactorList results,
      f.category = "ecc_critical_high" := by
  intro f hf
  simp only [eccCriticalHighFactorList] at hf
  split_ifs at hf <;>
    first
      | (rw [List.mem_singleton] at hf; subst hf; rfl)
      | simp at hf

lemma eccMediumLowFactorList_category {results : List ScanResultRow} :
    ∀ f ∈ eccMediumLowFactorList results, f.category = "ecc_medium_low" := by
  intro f hf
  simp only [eccMediumLowFactorList] at hf
  split_ifs at hf <;>
    first
      | (rw [List.mem_singleton] at hf; subst hf; rfl)
      | simp at hf

lemma diversityFactorList_category {results : List ScanResultRow} :
    ∀ f ∈ diversityFactorList results, f.category = "license_diversity" := by
  intro f hf
  simp only [diversityFactorList] at hf
  split_ifs at hf <;>
    first
      | (rw [List.mem_singleton] at hf; subst hf; rfl)
      | simp at hf

lemma lowConfFactorList_mem {results : List ScanResultRow} {f : RiskFactor}
    (hf : f ∈ lowConfFactorList results) :
    f.category = "low_confidence" ∧
      f.severity =
        (if 0 < (licenseResults results).countP rowBelowHalf then "high"
         else "medium") := by
  rw [← lowConfAcc_criticalCount results]
  simp only [lowConfFactorList] at hf
  split_ifs at hf <;>
    first
      | (rw [List.mem_singleton] at hf; subst hf;
         exact ⟨rfl, by split_ifs <;> simp_all⟩)
      | simp at hf

/-- C8: a license finding with confidence below 0.5 contributes 15 points
and one in `[0.5, 0.7)` contributes 8 (the total low-confidence points are
`15·#below + 8·#mid`); the factor list contains exactly one
`low_confidence` factor when any sub-0.7 finding exists (none otherwise),
its severity `high` iff some finding is below 0.5 and `medium` otherwise;
a single license finding with confidence 0.3 and no other signals yields
score exactly 15 with level `low`. -/
theorem C8_low_confidence (cfg : RiskConfig) (results : List ScanResultRow) :
    lowConfidencePoints results =
      15 * ((licenseResults results).countP rowBelowHalf : Int) +
        8 * ((licenseResults results).countP rowMidConf : Int) ∧
    (∀ f ∈ (calculate_risk_score cfg results).factors,
        f.category = "low_confidence" →
        f.severity =
          (if 0 < (licenseResults results).countP rowBelowHalf then "high"
           else "medium")) ∧
    (calculate_risk_score cfg results).factors.countP
        (fun f => f.category == "low_confidence") =
      (if (lowConfidenceRows results).isEmpty then 0 else 1) ∧
    (calculate_risk_score [] [licRow "MIT" (some "MIT") (some conf03)]).score
      = 15 ∧
    (calculate_risk_score [] [licRow "MIT" (some "MIT") (some conf03)]).level
      = "low" := by
  have hcat : ∀ f ∈ (calculate_risk_score cfg results).factors,
      f.category = "low_confidence" → f ∈ lowConfFactorList results := by
    intro f hf hlow
    simp only [calculate_risk_score, List.mem_append] at hf
    rcases hf with ((((((hf | hf) | hf) | hf) | hf) | hf) | hf)
    · rw [copyleftFactorList_category f hf] at hlow; exact absurd hlow (by decide)
    · rw [unknownFactorList_category f hf] at hlow; exact absurd hlow (by decide)
    · rw [missingFactorList_category f hf] at hlow; exact absurd hlow (by decide)
    · exact hf
    · rw [eccCriticalHighFactorList_category f hf] at hlow; exact absurd hlow (by decide)
    · rw [eccMediumLowFactorList_category f hf] at hlow; exact absurd hlow (by decide)
    · rw [diversityFactorList_category f hf] at hlow; exact absurd hlow (by decide)
  refine ⟨lowConfidencePoints_eq_counts results, ?_, ?_, by decide,
    by decide⟩
  · intro f hf hlow
    exact (lowConfFactorList_mem (hcat f hf hlow)).2
  · have hzero : ∀ (l : List RiskFactor) (cat : String),
        (∀ f ∈ l, f.category = cat) → cat ≠ "low_confidence" →
        l.countP (fun f => f.category == "low_confidence") = 0 := by
      intro l cat hall hne
      refine List.countP_eq_zero.mpr fun f hf => ?_
      simp [hall f hf, hne]
    simp only [calculate_risk_score, List.countP_append]
    rw [hzero _ _ copyleftFactorList_category (by decide),
      hzero _ _ unknownFactorList_category (by decide),
      hzero _ _ missingFactorList_category (by decide),
      hzero _ _ eccCriticalHighFactorList_category (by decide),
      hzero _ _ eccMediumLowFactorList_category (by decide),
      hzero _ _ diversityFactorList_category (by decide)]
    unfold lowConfFactorList
    split_ifs <;> simp

/-- Witness for C8: the 0.3-confidence scenario, via the theorem itself. -/
theorem C8_low_confidence_witness :
    (calculate_risk_score [] [licRow "MIT" (some "MIT") (some conf03)]).score
      = 15 ∧
    (calculate_risk_score [] [licRow "MIT" (some "MIT") (some conf03)]).level
      = "low" := by
  obtain ⟨-, -, -, h4, h5⟩ := C8_low_confidence [] []
  exact ⟨h4, h5⟩

/-! ## C2 — score bounds and monotonicity -/

/-- The score contribution of one category list as a sum over its names:
a name with a risk-map entry contributes its configured weight. -/
lemma licenseListSum_go (cfg : RiskConfig) (m : List (String × List String)) :
    ∀ (names : List String) (acc : Int),
      names.foldl
        (fun acc nm =>
          match mapGetFiles m nm with
          | none => acc
          | some _ => acc + (get_license_weight cfg nm).getD 0)
        acc =
      acc + (names.map fun nm =>
        if (mapGetFiles m nm).isSome then (get_license_weight cfg nm).getD 0
        else 0).sum := by
  intro names
  induction names with
  | nil => intro acc; simp
  | cons nm t ih =>
    intro acc
    simp only [List.foldl_cons, List.map_cons, List.sum_cons]
    cases hm : mapGetFiles m nm with
    | none =>
      rw [ih]
      simp [hm]
    | some files =>
      rw [ih]
      simp [hm]
      ring

lemma licenseListSum_eq_sum (cfg : RiskConfig)
    (m : List (String × List String)) (names : List String) :
    licenseListSum cfg m names =
      (names.map fun nm =>
        if (mapGetFiles m nm).isSome then (get_license_weight cfg nm).getD 0
        else 0).sum := by
  unfold licenseListSum
  rw [licenseListSum_go]
  simp

/-- Inserting a file under key `k'` makes exactly the keys `{k'} ∪ dom`
present. -/
lemma mapGetFiles_pushFile_isSome (m : List (String × List String))
    (k' v k : String) :
    (mapGetFiles (mapPushFile m k' v) k).isSome =
      ((k == k') || (mapGetFiles m k).isSome) := by
  induction m with
  | nil =>
    by_cases h : k = k'
    · subst h
      simp [mapPushFile, mapGetFiles]
    · simp [mapPushFile, mapGetFiles, List.find?, beq_eq_false_iff_ne.mpr h,
        beq_eq_false_iff_ne.mpr (Ne.symm h)]
  | cons e t ih =>
    obtain ⟨ke, files⟩ := e
    by_cases h1 : ke = k'
    · subst h1
      by_cases h2 : k = ke
      · subst h2
        simp [mapPushFile, mapGetFiles, List.find?]
      · simp [mapPushFile, mapGetFiles, List.find?,
          beq_eq_false_iff_ne.mpr h2, beq_eq_false_iff_ne.mpr (Ne.symm h2)]
    · by_cases h2 : ke = k
      · subst h2
        simp [mapPushFile, mapGetFiles, List.find?,
          beq_eq_false_iff_ne.mpr h1]
      · have ih' := ih
        simp only [mapGetFiles, List.find?] at ih' ⊢
        simp [mapPushFile, beq_eq_false_iff_ne.mpr h1,
          beq_eq_false_iff_ne.mpr h2, ih']

/-- Pushing a file for a nonnegative-weight key never decreases a category
list's score. -/
lemma licenseListSum_pushFile_le (cfg : RiskConfig)
    (m : List (String × List String)) (k' v : String)
    (hw : 0 ≤ (get_license_weight cfg k').getD 0) (names : List String) :
    licenseListSum cfg m names ≤
      licenseListSum cfg (mapPushFile m k' v) names := by
  rw [licenseListSum_eq_sum, licenseListSum_eq_sum]
  apply List.sum_le_sum
  intro nm _
  by_cases h : nm = k'
  · subst h
    rw [mapGetFiles_pushFile_isSome]
    cases hbefore : (mapGetFiles m nm).isSome <;> simp [hbefore, hw]
  · rw [mapGetFiles_pushFile_isSome, beq_eq_false_iff_ne.mpr h]
    simp

/-- Appending a nonnegative-weight name (if absent) never decreases a
category list's score. -/
lemma licenseListSum_pushName_le (cfg : RiskConfig)
    (m : List (String × List String)) (names : List String) (nm : String)
    (hw : 0 ≤ (get_license_weight cfg nm).getD 0) :
    licenseListSum cfg m names ≤
      licenseListSum cfg m (pushIfAbsent names nm) := by
  unfold pushIfAbsent
  split_ifs
  · exact le_refl _
  · rw [licenseListSum_eq_sum, licenseListSum_eq_sum, List.map_append,
      List.sum_append]
    have : (0 : Int) ≤
        ([nm].map fun x =>
          if (mapGetFiles m x).isSome then (get_license_weight cfg x).getD 0
          else 0).sum := by
      simp only [List.map_cons, List.map_nil, List.sum_cons, List.sum_nil,
        add_zero]
      split_ifs <;> simp [hw]
    omega

/-- The combined copyleft+unknown score of a collection state. -/
def collectSum (cfg : RiskConfig) (st : LicCollect) : Int :=
  licenseListSum cfg st.riskMap st.copyleft +
    licenseListSum cfg st.riskMap st.unknown

/-- One collection step never decreases the combined score. -/
lemma collectStep_score_le (cfg : RiskConfig) (st : LicCollect)
    (r : ScanResultRow) :
    collectSum cfg st ≤ collectSum cfg (collectStep cfg st r) := by
  cases hn : r.licenseName with
  | none => simp [collectStep, hn]
  | some nm =>
    cases hl : get_license_weight cfg nm with
    | none => simp [collectStep, hn, hl]
    | some w =>
      by_cases hpos : 0 < w
      · have hw : 0 ≤ (get_license_weight cfg nm).getD 0 := by
          rw [hl]
          simp
          omega
        by_cases hcl : is_copyleft nm = true
        · simp only [collectStep, hn, hl, hpos, hcl, if_true, collectSum]
          have h1 := licenseListSum_pushFile_le cfg st.riskMap nm r.filePath
            hw st.copyleft
          have h2 := licenseListSum_pushFile_le cfg st.riskMap nm r.filePath
            hw st.unknown
          have h3 := licenseListSum_pushName_le cfg
            (mapPushFile st.riskMap nm r.filePath) st.copyleft nm hw
          omega
        · by_cases hun : is_unknown_or_proprietary nm = true
          · simp only [collectStep, hn, hl, hpos, hcl, hun, if_true,
              Bool.false_eq_true, if_false, collectSum]
            have h1 := licenseListSum_pushFile_le cfg st.riskMap nm
              r.filePath hw st.copyleft
            have h2 := licenseListSum_pushFile_le cfg st.riskMap nm
              r.filePath hw st.unknown
            have h3 := licenseListSum_pushName_le cfg
              (mapPushFile st.riskMap nm r.filePath) st.unknown nm hw
            omega
          · simp only [collectStep, hn, hl, hpos, hcl, hun,
              Bool.false_eq_true, if_false, if_true, collectSum]
            have h1 := licenseListSum_pushFile_le cfg st.riskMap nm
              r.filePath hw st.copyleft
            have h2 := licenseListSum_pushFile_le cfg st.riskMap nm
              r.filePath hw st.unknown
            omega
      · simp [collectStep, hn, hl, hpos]

lemma collect_foldl_score_le (cfg : RiskConfig) (rows : List ScanResultRow) :
    ∀ st : LicCollect,
      collectSum cfg st ≤
        collectSum cfg (rows.foldl (collectStep cfg) st) := by
  induction rows with
  | nil => intro st; simp
  | cons r t ih =>
    intro st
    exact le_trans (collectStep_score_le cfg st r) (ih (collectStep cfg st r))

lemma licenseResults_append (xs ys : List ScanResultRow) :
    licenseResults (xs ++ ys) = licenseResults xs ++ licenseResults ys := by
  simp [licenseResults, List.filter_append]

lemma licenseTypeSum_eq_collectSum (cfg : RiskConfig)
    (results : List ScanResultRow) :
    licenseTypeSum cfg results =
      collectSum cfg (collectLicenses cfg results) := rfl

lemma licenseTypeSum_mono (cfg : RiskConfig) (xs : List ScanResultRow)
    (r : ScanResultRow) :
    licenseTypeSum cfg xs ≤ licenseTypeSum cfg (xs ++ [r]) := by
  rw [licenseTypeSum_eq_collectSum, licenseTypeSum_eq_collectSum]
  unfold collectLicenses
  rw [licenseResults_append, List.foldl_append]
  exact collect_foldl_score_le cfg (licenseResults [r]) _

/-- Every member of either category list carries a positive configured
weight. -/
lemma collectStep_mem_pos (cfg : RiskConfig) (st : LicCollect)
    (r : ScanResultRow)
    (hc : ∀ n ∈ st.copyleft, 0 < (get_license_weight cfg n).getD 0)
    (hu : ∀ n ∈ st.unknown, 0 < (get_license_weight cfg n).getD 0) :
    (∀ n ∈ (collectStep cfg st r).copyleft,
      0 < (get_license_weight cfg n).getD 0) ∧
    (∀ n ∈ (collectStep cfg st r).unknown,
      0 < (get_license_weight cfg n).getD 0) := by
  cases hn : r.licenseName with
  | none => simp only [collectStep, hn]; exact ⟨hc, hu⟩
  | some nm =>
    cases hl : get_license_weight cfg nm with
    | none => simp only [collectStep, hn, hl]; exact ⟨hc, hu⟩
    | some w =>
      by_cases hpos : 0 < w
      · have hnm : 0 < (get_license_weight cfg nm).getD 0 := by
          rw [hl]; simpa using hpos
        by_cases hcl : is_copyleft nm = true
        · simp only [collectStep, hn, hl, hpos, hcl, if_true]
          refine ⟨fun n hn' => ?_, hu⟩
          rcases mem_of_mem_pushIfAbsent hn' with h | h
          · exact hc n h
          · rw [h]; exact hnm
        · by_cases hun : is_unknown_or_proprietary nm = true
          · simp only [collectStep, hn, hl, hpos, hcl, hun, if_true,
              Bool.false_eq_true, if_false]
            refine ⟨hc, fun n hn' => ?_⟩
            rcases mem_of_mem_pushIfAbsent hn' with h | h
            · exact hu n h
            · rw [h]; exact hnm
          · simp only [collectStep, hn, hl, hpos, hcl, hun,
              Bool.false_eq_true, if_false, if_true]
            exact ⟨hc, hu⟩
      · simp only [collectStep, hn, hl, hpos, if_false]
        exact ⟨hc, hu⟩

lemma collect_mem_pos (cfg : RiskConfig) (rows : List ScanResultRow) :
    ∀ st : LicCollect,
      (∀ n ∈ st.copyleft, 0 < (get_license_weight cfg n).getD 0) →
      (∀ n ∈ st.unknown, 0 < (get_license_weight cfg n).getD 0) →
      (∀ n ∈ (rows.foldl (collectStep cfg) st).copyleft,
        0 < (get_license_weight cfg n).getD 0) ∧
      (∀ n ∈ (rows.foldl (collectStep cfg) st).unknown,
        0 < (get_license_weight cfg n).getD 0) := by
  induction rows with
  | nil => intro st hc hu; exact ⟨hc, hu⟩
  | cons r t ih =>
    intro st hc hu
    obtain ⟨hc', hu'⟩ := collectStep_mem_pos cfg st r hc hu
    exact ih _ hc' hu'

lemma licenseListSum_nonneg (cfg : RiskConfig)
    (m : List (String × List String)) (names : List String)
    (h : ∀ n ∈ names, 0 ≤ (get_license_weight cfg n).getD 0) :
    0 ≤ licenseListSum cfg m names := by
  rw [licenseListSum_eq_sum]
  apply List.sum_nonneg
  intro x hx
  rcases List.mem_map.mp hx with ⟨nm, hnm, rfl⟩
  split_ifs
  · exact h nm hnm
  · exact le_refl 0

lemma licenseTypeSum_nonneg (cfg : RiskConfig)
    (results : List ScanResultRow) : 0 ≤ licenseTypeSum cfg results := by
  rw [licenseTypeSum_eq_collectSum]
  obtain ⟨hc, hu⟩ := collect_mem_pos cfg (licenseResults results) ⟨[], [], []⟩
    (by simp) (by simp)
  unfold collectSum
  have h1 := licenseListSum_nonneg cfg
    (collectLicenses cfg results).riskMap
    (collectLicenses cfg results).copyleft
    (fun n hn => le_of_lt (hc n hn))
  have h2 := licenseListSum_nonneg cfg
    (collectLicenses cfg results).riskMap
    (collectLicenses cfg results).unknown
    (fun n hn => le_of_lt (hu n hn))
  omega

lemma missingSpdx_append (xs ys : List ScanResultRow) :
    missingSpdx (xs ++ ys) = missingSpdx xs ++ missingSpdx ys := by
  simp [missingSpdx, licenseResults, List.filter_append]

lemma missingSpdxPoints_nonneg (results : List ScanResultRow) :
    0 ≤ missingSpdxPoints results := by
  unfold missingSpdxPoints
  have := Int.natCast_nonneg (missingSpdx results).length
  omega

lemma missingSpdxPoints_mono (xs : List ScanResultRow) (r : ScanResultRow) :
    missingSpdxPoints xs ≤ missingSpdxPoints (xs ++ [r]) := by
  unfold missingSpdxPoints
  rw [missingSpdx_append, List.length_append]
  have := Int.natCast_nonneg (missingSpdx [r]).length
  push_cast
  omega

lemma lowConfidencePoints_nonneg (results : List ScanResultRow) :
    0 ≤ lowConfidencePoints results := by
  rw [lowConfidencePoints_eq_counts]
  have h1 := Int.natCast_nonneg ((licenseResults results).countP rowBelowHalf)
  have h2 := Int.natCast_nonneg ((licenseResults results).countP rowMidConf)
  omega

lemma lowConfidencePoints_mono (xs : List ScanResultRow) (r : ScanResultRow) :
    lowConfidencePoints xs ≤ lowConfidencePoints (xs ++ [r]) := by
  rw [lowConfidencePoints_eq_counts, lowConfidencePoints_eq_counts,
    licenseResults_append, List.countP_append, List.countP_append]
  have h1 := Int.natCast_nonneg ((licenseResults [r]).countP rowBelowHalf)
  have h2 := Int.natCast_nonneg ((licenseResults [r]).countP rowMidConf)
  push_cast
  omega

lemma eccStep_points (acc : EccAcc) (r : ScanResultRow) :
    (eccStep acc r).points = acc.points + eccRowPoints r := by
  unfold eccStep eccRowPoints
  by_cases h1 : (r.riskSeverity.getD "medium") == "critical"
  · simp [h1]
  · by_cases h2 : (r.riskSeverity.getD "medium") == "high"
    · simp [h1, h2]
    · by_cases h3 : (r.riskSeverity.getD "medium") == "medium" <;>
        simp [h1, h2, h3]

lemma ecc_foldl_points (rows : List ScanResultRow) :
    ∀ acc : EccAcc,
      (rows.foldl eccStep acc).points =
        acc.points + (rows.map eccRowPoints).sum := by
  induction rows with
  | nil => intro acc; simp
  | cons r t ih =>
    intro acc
    simp only [List.foldl_cons, List.map_cons, List.sum_cons]
    rw [ih, eccStep_points]
    ring

lemma eccPoints_eq (results : List ScanResultRow) :
    eccPoints results = ((eccResults results).map eccRowPoints).sum := by
  unfold eccPoints eccAcc
  rw [ecc_foldl_points]
  simp

lemma eccRowPoints_nonneg (r : ScanResultRow) : 0 ≤ eccRowPoints r := by
  simp only [eccRowPoints]
  split_ifs <;> norm_num

lemma eccResults_append (xs ys : List ScanResultRow) :
    eccResults (xs ++ ys) = eccResults xs ++ eccResults ys := by
  simp [eccResults, List.filter_append]

lemma eccPoints_nonneg (results : List ScanResultRow) :
    0 ≤ eccPoints results := by
  rw [eccPoints_eq]
  apply List.sum_nonneg
  intro x hx
  rcases List.mem_map.mp hx with ⟨row, -, rfl⟩
  exact eccRowPoints_nonneg row

lemma eccPoints_mono (xs : List ScanResultRow) (r : ScanResultRow) :
    eccPoints xs ≤ eccPoints (xs ++ [r]) := by
  rw [eccPoints_eq, eccPoints_eq, eccResults_append, List.map_append,
    List.sum_append]
  have : 0 ≤ ((eccResults [r]).map eccRowPoints).sum := by
    apply List.sum_nonneg
    intro x hx
    rcases List.mem_map.mp hx with ⟨row, -, rfl⟩
    exact eccRowPoints_nonneg row
  omega

lemma length_le_pushIfAbsent (l : List String) (x : String) :
    l.length ≤ (pushIfAbsent l x).length := by
  unfold pushIfAbsent
  split_ifs <;> simp

lemma length_le_foldl_pushIfAbsent (names : List String) :
    ∀ l : List String, l.length ≤ (names.foldl pushIfAbsent l).length := by
  induction names with
  | nil => intro l; simp
  | cons x t ih =>
    intro l
    exact le_trans (length_le_pushIfAbsent l x) (ih (pushIfAbsent l x))

lemma diversityBucket_mono {a b : Nat} (h : a ≤ b) :
    diversityBucket a ≤ diversityBucket b := by
  unfold diversityBucket
  split_ifs <;> omega

lemma diversityBucket_nonneg (n : Nat) : 0 ≤ diversityBucket n := by
  unfold diversityBucket
  split_ifs <;> norm_num

lemma diversityPoints_nonneg (results : List ScanResultRow) :
    0 ≤ diversityPoints results :=
  diversityBucket_nonneg _

lemma diversityPoints_mono (xs : List ScanResultRow) (r : ScanResultRow) :
    diversityPoints xs ≤ diversityPoints (xs ++ [r]) := by
  unfold diversityPoints
  apply diversityBucket_mono
  unfold uniqueLicenses
  rw [licenseResults_append, List.filterMap_append, List.foldl_append]
  exact length_le_foldl_pushIfAbsent _ _

lemma contributionSum_nonneg (cfg : RiskConfig) (results : List ScanResultRow) :
    0 ≤ contributionSum cfg results := by
  unfold contributionSum
  have h1 := licenseTypeSum_nonneg cfg results
  have h2 := missingSpdxPoints_nonneg results
  have h3 := lowConfidencePoints_nonneg results
  have h4 := eccPoints_nonneg results
  have h5 := diversityPoints_nonneg results
  omega

lemma contributionSum_mono (cfg : RiskConfig) (xs : List ScanResultRow)
    (r : ScanResultRow) : contributionSum cfg xs ≤ contributionSum cfg (xs ++ [r]) := by
  unfold contributionSum
  have h1 := licenseTypeSum_mono cfg xs r
  have h2 := missingSpdxPoints_mono xs r
  have h3 := lowConfidencePoints_mono xs r
  have h4 := eccPoints_mono xs r
  have h5 := diversityPoints_mono xs r
  omega

lemma wrapI32_range (x : Int) :
    -2147483648 ≤ wrapI32 x ∧ wrapI32 x < 2147483648 := by
  unfold wrapI32
  omega

lemma wrapI32_eq_self {x : Int} (h1 : -2147483648 ≤ x) (h2 : x < 2147483648) :
    wrapI32 x = x := by
  unfold wrapI32
  omega

/-- Wrapping depends only on the residue: a wrapped partial sum can be
collapsed into the unwrapped sum. -/
lemma wrapI32_wrapI32_add (a b : Int) :
    wrapI32 (wrapI32 a + b) = wrapI32 (a + b) := by
  unfold wrapI32
  omega

lemma addI32_wrapI32_left (a b : Int) :
    addI32 (wrapI32 a) b = wrapI32 (a + b) :=
  wrapI32_wrapI32_add a b

/-- The wrapped category-list accumulation is the wrap of the unwrapped
total (each `+=` only moves the accumulator within one `i32` residue
class). -/
lemma licenseListScore_collapse (cfg : RiskConfig)
    (m : List (String × List String)) :
    ∀ (names : List String) (base : Int), -2147483648 ≤ base →
      base < 2147483648 →
      licenseListScore cfg m base names =
        wrapI32 (base + licenseListSum cfg m names) := by
  intro names
  induction names with
  | nil =>
    intro base h1 h2
    simp only [licenseListScore, licenseListSum, List.foldl_nil, add_zero]
    exact (wrapI32_eq_self h1 h2).symm
  | cons nm t ih =>
    intro base h1 h2
    have hsum := licenseListSum_go cfg m t
    simp only [licenseListScore, licenseListSum, List.foldl_cons] at ih ⊢
    cases hm : mapGetFiles m nm with
    | none => exact ih base h1 h2
    | some files =>
      have hr := wrapI32_range (base + (get_license_weight cfg nm).getD 0)
      rw [show addI32 base ((get_license_weight cfg nm).getD 0) =
          wrapI32 (base + (get_license_weight cfg nm).getD 0) from rfl]
      rw [ih _ hr.1 hr.2, hsum, hsum, wrapI32_wrapI32_add]
      congr 1
      ring

lemma licenseTypeScore_collapse (cfg : RiskConfig)
    (results : List ScanResultRow) :
    licenseTypeScore cfg results = wrapI32 (licenseTypeSum cfg results) := by
  simp only [licenseTypeScore, licenseTypeSum]
  have h1 := licenseListScore_collapse cfg
    (collectLicenses cfg results).riskMap
    (collectLicenses cfg results).copyleft 0 (by omega) (by omega)
  have hr := wrapI32_range
    (0 + licenseListSum cfg (collectLicenses cfg results).riskMap
      (collectLicenses cfg results).copyleft)
  rw [h1, licenseListScore_collapse cfg _ _ _ hr.1 hr.2,
    wrapI32_wrapI32_add]
  congr 1
  ring

lemma baseScore_collapse (cfg : RiskConfig) (results : List ScanResultRow) :
    baseScore cfg results = wrapI32 (contributionSum cfg results) := by
  unfold baseScore contributionSum
  rw [licenseTypeScore_collapse, addI32_wrapI32_left, addI32_wrapI32_left,
    addI32_wrapI32_left, addI32_wrapI32_left]

/-- C2 counterexample: two configured rules of legal `i32` weight `2^30`
each and two matching copyleft findings drive the `i32` `base_score` to
`2^31`, which wraps to `-2^31`: the score of the two-finding scan is
`-2147483648` — outside `[0, 100]` — while the one-finding prefix scores
`100`, so appending one more qualifying finding strictly decreases the
score. -/
theorem C2_counterexample :
    (calculate_risk_score cfgOverflow [rowOverflow1]).score = 100 ∧
    (calculate_risk_score cfgOverflow ([rowOverflow1] ++ [rowOverflow2])).score
      = -2147483648 ∧
    ¬ (0 ≤ (calculate_risk_score cfgOverflow
        ([rowOverflow1] ++ [rowOverflow2])).score) ∧
    ¬ ((calculate_risk_score cfgOverflow [rowOverflow1]).score ≤
        (calculate_risk_score cfgOverflow
          ([rowOverflow1] ++ [rowOverflow2])).score) :=
  ⟨by decide, by decide, by decide, by decide⟩

/-- C2 (amended): the `i32` `base_score` is always the two's-complement
wrap of the mathematical contribution sum, and — provided that sum stays
below `2^31`, i.e. absent `i32` overflow — the score equals
`min(sum of contributions, 100)`, lies in `[0, 100]`, and appending one
more persisted finding (of any kind) never decreases it.  (The sum is
never negative, so the lower `i32` bound needs no proviso.) -/
theorem C2_risk_score (cfg : RiskConfig) (results : List ScanResultRow)
    (r : ScanResultRow)
    (h : contributionSum cfg (results ++ [r]) < 2147483648) :
    (calculate_risk_score cfg results).score =
      min (wrapI32 (contributionSum cfg results)) 100 ∧
    (calculate_risk_score cfg results).score =
      min (contributionSum cfg results) 100 ∧
    0 ≤ (calculate_risk_score cfg results).score ∧
    (calculate_risk_score cfg results).score ≤ 100 ∧
    (calculate_risk_score cfg results).score ≤
      (calculate_risk_score cfg (results ++ [r])).score := by
  have hn1 := contributionSum_nonneg cfg results
  have hn2 := contributionSum_nonneg cfg (results ++ [r])
  have hm := contributionSum_mono cfg results r
  have hb1 : baseScore cfg results = contributionSum cfg results := by
    rw [baseScore_collapse]
    exact wrapI32_eq_self (by omega) (by omega)
  have hb2 : baseScore cfg (results ++ [r]) =
      contributionSum cfg (results ++ [r]) := by
    rw [baseScore_collapse]
    exact wrapI32_eq_self (by omega) (by omega)
  refine ⟨by simp only [calculate_risk_score, baseScore_collapse], ?_, ?_,
    ?_, ?_⟩
  · simp only [calculate_risk_score, hb1]
  · simp only [calculate_risk_score, hb1]
    omega
  · simp only [calculate_risk_score, hb1]
    omega
  · simp only [calculate_risk_score, hb1, hb2]
    omega

/-- Witness for C2 (amended): a small config and scan — one weighted
copyleft finding scoring 20, then a 0.3-confidence `MIT` row appended —
exercise the no-overflow bound. -/
theorem C2_risk_score_witness :
    0 ≤ (calculate_risk_score [("GPL%", 20)]
      [licRow "GPL-3.0-only" (some "GPL-3.0-only") none]).score ∧
    (calculate_risk_score [("GPL%", 20)]
      [licRow "GPL-3.0-only" (some "GPL-3.0-only") none]).score ≤ 100 ∧
    (calculate_risk_score [("GPL%", 20)]
        [licRow "GPL-3.0-only" (some "GPL-3.0-only") none]).score ≤
      (calculate_risk_score [("GPL%", 20)]
        ([licRow "GPL-3.0-only" (some "GPL-3.0-only") none] ++
          [licRow "MIT" (some "MIT") (some conf03)])).score := by
  obtain ⟨-, -, h3, h4, h5⟩ :=
    C2_risk_score [("GPL%", 20)]
      [licRow "GPL-3.0-only" (some "GPL-3.0-only") none]
      (licRow "MIT" (some "MIT") (some conf03)) (by decide)
  exact ⟨h3, h4, h5⟩

end LegalScanner
